import Mathlib

/-!
Verification of the educarCMS assessment/progress subsystem.

This file gives a shallow embedding, in Lean 4, of the parts of the Django
application relevant to the progress tracker (`core/views.py`,
`core/helpers.py`), the assessment engine (`core/assessments_views.py`),
and category management (`core/courses_views.py`), together with theorems
settling the specification claims about them.

Modelling conventions:
* Database tables become lists of records; primary keys are `Nat`.
* Django `DecimalField` values (points, scores, weights) and Python floats
  are modelled as `ℚ`.  Python `round(x, k)` is modelled as rounding
  half-up on exact rationals (`roundTo1` / `roundTo2` below); Python's
  float tie behaviour (round-half-even on binary floats) differs from this
  only on exact ties, which no claim or chosen input exercises.
* Timestamps are `ℤ` (seconds); `None`-able columns are `Option`.
* Form input is modelled per use site: a text field that Python feeds to
  `float()` / `int()` becomes `RawNum` / `RawNat` (absent-or-empty,
  present-but-non-numeric, or numeric), since `float`/`int` raise
  `ValueError` on non-numeric strings; a field used as a `Choice` primary
  key in an ORM lookup is modelled as `Option Nat` (absent-or-empty, or a
  numeric id).
* Uncaught Python exceptions (`ValueError`, `IntegrityError`) are
  modelled with `Except Unit`.
* Text/file payloads are carried (`String` / a `Bool` presence flag) but
  never inspected by any claim.
-/

/-- Floor of a rational, computed on the numerator/denominator pair
(kernel-reducible, unlike the `Int.floor` projection). -/
def ratFloor (q : ℚ) : ℤ := q.num.fdiv q.den

/-- Python `round(x, 1)` modelled on exact rationals (half rounds up). -/
def roundTo1 (q : ℚ) : ℚ := ((ratFloor (q * 10 + 1/2) : ℤ) : ℚ) / 10

/-- Python `round(x, 2)` modelled on exact rationals (half rounds up). -/
def roundTo2 (q : ℚ) : ℚ := ((ratFloor (q * 100 + 1/2) : ℤ) : ℚ) / 100

/-- Role of a `SchoolUser` (`SchoolUser.ROLE_CHOICES` in `core/models.py`). -/
inductive Role where
  | admin
  | teacher
  | student
deriving Repr, DecidableEq

/-- Publication status of a `Lesson`/`Subject` (`status` choices in `core/models.py`). -/
inductive PubStatus where
  | draft
  | published
deriving Repr, DecidableEq

/-- A `Lesson` row: the id and the fields the progress tracker reads. -/
structure Lesson where
  id : Nat
  status : PubStatus
deriving Repr, DecidableEq

/-- A `Subject` row together with its `lessons` many-to-many links. -/
structure Subject where
  id : Nat
  courseId : Nat
  lessonIds : List Nat
deriving Repr, DecidableEq

/-- A `Progress` row (`core/models.py`): unique per `(student, lesson)`,
but carrying its own `course` foreign key. -/
structure Progress where
  studentId : Nat
  courseId : Nat
  lessonId : Nat
  is_completed : Bool
  progress_percentage : Nat
  completed_at : Option ℤ
deriving Repr, DecidableEq

/-- The slice of the database used by the progress tracker. -/
structure ProgressDB where
  lessons : List Lesson
  subjects : List Subject
  progresses : List Progress
deriving Repr, DecidableEq

/-- Well-formedness of the progress slice: lesson primary keys are unique
and the `unique_together ('student', 'lesson')` constraint of `Progress`
holds. -/
def ProgressDB.WF (db : ProgressDB) : Prop :=
  (db.lessons.map (·.id)).Nodup ∧
  (db.progresses.map (fun p => (p.studentId, p.lessonId))).Nodup

instance (db : ProgressDB) : Decidable db.WF := by
  unfold ProgressDB.WF
  infer_instance

/-- `Lesson.objects.filter(subjects__course=course, status="published").distinct()`
from `calculate_course_progress` (`core/views.py`). Since lesson rows are
listed once per primary key, filtering the lesson table directly realises
the `distinct()` of the join. Returns the ids. -/
def publishedCourseLessons (db : ProgressDB) (courseId : Nat) : List Nat :=
  (db.lessons.filter (fun l =>
    decide (l.status = PubStatus.published) &&
    db.subjects.any (fun s => decide (s.courseId = courseId) && s.lessonIds.contains l.id))).map (·.id)

/-- `calculate_course_progress(student, course)` from `core/views.py`
(lines 268-287): published lessons of the course, then the count of this
student's completed `Progress` rows *for this course* among them. -/
def calculate_course_progress (db : ProgressDB) (studentId courseId : Nat) : ℚ :=
  let published_lessons := publishedCourseLessons db courseId
  let total_lessons := published_lessons.length
  if total_lessons = 0 then 0
  else
    let completed_lessons :=
      (db.progresses.filter (fun p =>
        decide (p.studentId = studentId) && decide (p.courseId = courseId) &&
        published_lessons.contains p.lessonId && p.is_completed)).length
    roundTo1 ((completed_lessons : ℚ) / (total_lessons : ℚ) * 100)

/-- The claim C1 formula, written from the spec's words: a lesson of `P`
counts as completed when *its* `Progress` row for the student (unique per
`(student, lesson)`) has `is_completed`, with no condition on that row's
course. -/
def courseProgressSpecC1 (db : ProgressDB) (studentId courseId : Nat) : ℚ :=
  let pubLessons := publishedCourseLessons db courseId
  if pubLessons.length = 0 then 0
  else
    let completed :=
      (pubLessons.filter (fun l =>
        db.progresses.any (fun p =>
          decide (p.studentId = studentId) && decide (p.lessonId = l) && p.is_completed))).length
    roundTo1 ((completed : ℚ) / (pubLessons.length : ℚ) * 100)

/-- The C1 formula amended by the counterexample: the completed lesson's
`Progress` row must additionally carry the queried course. -/
def courseProgressAmendedC1 (db : ProgressDB) (studentId courseId : Nat) : ℚ :=
  let pubLessons := publishedCourseLessons db courseId
  if pubLessons.length = 0 then 0
  else
    let completed :=
      (pubLessons.filter (fun l =>
        db.progresses.any (fun p =>
          decide (p.studentId = studentId) && decide (p.courseId = courseId) &&
          decide (p.lessonId = l) && p.is_completed))).length
    roundTo1 ((completed : ℚ) / (pubLessons.length : ℚ) * 100)

/-- C1 counterexample state: course 1 has subject 1 with the published
lesson 1; the student's unique `Progress` row for lesson 1 is completed
but belongs to course 2 (a lesson may sit in subjects of two courses, and
`mark_lesson_as_completed` records the course it was completed through). -/
def exDbC1 : ProgressDB :=
  { lessons := [⟨1, PubStatus.published⟩]
    subjects := [⟨1, 1, [1]⟩, ⟨2, 2, [1]⟩]
    progresses := [⟨1, 2, 1, true, 100, some 0⟩] }

/-- `mark_lesson_as_completed(student, course, lesson)` from
`core/helpers.py` (lines 202-225).  `Progress.objects.get_or_create` keys
on `(student, course, lesson)`; when no such row exists but a row for the
same `(student, lesson)` under a *different* course does, the `create`
violates `unique_together ('student', 'lesson')` and raises
`IntegrityError` (modelled as `Except.error ()`). On success the row is
then updated to completed/100% with `completed_at = now` and saved.  The
update of the fetched row (identified by its `(student, course, lesson)`
key) is `progUpd` below; `mark_lesson_as_completed` follows. -/
def progUpd (studentId courseId lessonId : Nat) (now : ℤ) (p : Progress) : Progress :=
  if p.studentId = studentId ∧ p.courseId = courseId ∧ p.lessonId = lessonId then
    { p with is_completed := true, progress_percentage := 100, completed_at := some now }
  else p

def mark_lesson_as_completed (db : ProgressDB) (studentId courseId lessonId : Nat)
    (now : ℤ) : Except Unit ProgressDB :=
  match db.progresses.find? (fun p =>
      decide (p.studentId = studentId) && decide (p.courseId = courseId) &&
      decide (p.lessonId = lessonId)) with
  | some _ =>
    Except.ok { db with progresses := db.progresses.map (progUpd studentId courseId lessonId now) }
  | none =>
    if db.progresses.any (fun p => decide (p.studentId = studentId) && decide (p.lessonId = lessonId)) then
      Except.error ()
    else
      let created : Progress := ⟨studentId, courseId, lessonId, true, 100, some now⟩
      Except.ok { db with progresses := db.progresses ++ [created] }

/-- State of the school after a request that may raise: an uncaught
exception leaves the stored rows unchanged. -/
def markCompletedRun (db : ProgressDB) (studentId courseId lessonId : Nat) (now : ℤ) :
    ProgressDB :=
  match mark_lesson_as_completed db studentId courseId lessonId now with
  | Except.ok db' => db'
  | Except.error _ => db

/-- C6 counterexample state: the student's unique `Progress` row for
lesson 1 exists under course 2 and is not completed. -/
def exDbC6 : ProgressDB :=
  { lessons := [⟨1, PubStatus.published⟩]
    subjects := [⟨1, 1, [1]⟩, ⟨2, 2, [1]⟩]
    progresses := [⟨1, 2, 1, false, 0, none⟩] }

/-- A fresh-state example for the C6 witness: no progress rows yet. -/
def exDbC6w : ProgressDB :=
  { lessons := [⟨1, PubStatus.published⟩]
    subjects := [⟨1, 1, [1]⟩]
    progresses := [] }

/-- A `Course` row: the fields `category_delete` reads. -/
structure CourseRow where
  id : Nat
  schoolId : Nat
  categoryId : Option Nat
deriving Repr, DecidableEq

/-- The slice of the database used by category management: category
primary keys plus the courses that may reference them. -/
structure CatDB where
  categories : List Nat
  courses : List CourseRow
deriving Repr, DecidableEq

/-- Outcome of `category_delete`: the flash message plus redirect.  The
rejection message carries the linked-course count interpolated into it. -/
inductive CatDelOutcome where
  | deletedOk (categoryId : Nat)
  | rejectedLinked (categoryId : Nat) (coursesCount : Nat)
  | renderedConfirm (coursesCount : Nat)
  | notFound
deriving Repr, DecidableEq

/-- `category_delete` from `core/courses_views.py` (lines 1196-1243).
Counts the courses of the category in the current school; a POST deletes
only when that count is zero (`Category` deletion SET_NULLs course
references), otherwise warns with the count. -/
def category_delete (db : CatDB) (schoolId categoryId : Nat) (isPost : Bool) :
    CatDB × CatDelOutcome :=
  if db.categories.contains categoryId then
    let courses_count :=
      (db.courses.filter (fun c =>
        decide (c.categoryId = some categoryId) && decide (c.schoolId = schoolId))).length
    if isPost then
      if courses_count > 0 then
        (db, CatDelOutcome.rejectedLinked categoryId courses_count)
      else
        ({ categories := db.categories.filter (fun c => !decide (c = categoryId))
           courses := db.courses.map (fun c =>
             if c.categoryId = some categoryId then { c with categoryId := none } else c) },
         CatDelOutcome.deletedOk categoryId)
    else
      (db, CatDelOutcome.renderedConfirm courses_count)
  else (db, CatDelOutcome.notFound)

/-- Category state for the C8 witness: category 1 has no linked course in
school 1; category 2 has one. -/
def exDbC8 : CatDB :=
  { categories := [1, 2]
    courses := [⟨10, 1, some 2⟩, ⟨11, 2, some 1⟩] }

/-- Question type (`Question.QUESTION_TYPES` in `core/models.py`). -/
inductive QType where
  | multiple_choice
  | true_false
  | essay
  | file
deriving Repr, DecidableEq

/-- The two auto-graded ("objective") question types. -/
def QType.isObjective : QType → Bool
  | QType.multiple_choice => true
  | QType.true_false => true
  | _ => false

/-- A `Question` row (`core/models.py`): `points` is a `DecimalField`
with no sign validator, modelled as `ℚ`. -/
structure Question where
  id : Nat
  assessmentId : Nat
  qtype : QType
  order : Nat
  points : ℚ
deriving Repr, DecidableEq

/-- A `Choice` row. -/
structure Choice where
  id : Nat
  questionId : Nat
  is_correct : Bool
deriving Repr, DecidableEq

/-- An `Attempt` row: `score` is nullable until computed; timestamps in
seconds. -/
structure Attempt where
  id : Nat
  studentId : Nat
  assessmentId : Nat
  attempt_number : Nat
  is_submitted : Bool
  score : Option ℚ
  started_at : ℤ
  finished_at : Option ℤ
deriving Repr, DecidableEq

/-- An `Answer` row; `file_answer` is modelled as a presence flag. -/
structure Answer where
  id : Nat
  attemptId : Nat
  questionId : Nat
  choiceId : Option Nat
  text_answer : String
  file_answer : Bool
  is_correct : Bool
deriving Repr, DecidableEq

/-- An `Assessment` row: the fields the attempt lifecycle reads.
`time_limit` is in minutes and nullable; `open_at`/`close_at` nullable. -/
structure Assessment where
  id : Nat
  courseId : Nat
  attempts_allowed : Nat
  time_limit : Option Nat
  open_at : Option ℤ
  close_at : Option ℤ
deriving Repr, DecidableEq

/-- The slice of the database used by the assessment engine.
`enrollments` holds `(courseId, studentId)` pairs. -/
structure AssessDB where
  enrollments : List (Nat × Nat)
  attempts : List Attempt
  questions : List Question
  choices : List Choice
  answers : List Answer
deriving Repr, DecidableEq

/-- Replace the attempt row with the given primary key. -/
def updAttempt (db : AssessDB) (attemptId : Nat) (f : Attempt → Attempt) : AssessDB :=
  { db with attempts := db.attempts.map (fun a => if a.id = attemptId then f a else a) }

/-- Replace the answer row with the given primary key. -/
def updAnswer (answers : List Answer) (answerId : Nat) (f : Answer → Answer) : List Answer :=
  answers.map (fun a => if a.id = answerId then f a else a)

/-- Outcome of `assessment_start`: redirect back to the detail page (any
guard failing) or on to the take page of the new attempt. -/
inductive StartOutcome where
  | redirectDetail
  | redirectTake (attemptId : Nat)
deriving Repr, DecidableEq

/-- A nullable bound (`open_at`/`close_at`) is violated when it is set
and the comparison holds — Python's `if assessment.open_at and now <
assessment.open_at:` pattern. -/
instance optionBoundDecidable (x : Option ℤ) (p : ℤ → Prop) [DecidablePred p] :
    Decidable (∃ o ∈ x, p o) :=
  match x with
  | none => Decidable.isFalse (by simp)
  | some a =>
    if h : p a then Decidable.isTrue ⟨a, rfl, h⟩ else Decidable.isFalse (by simp [h])

/-- `assessment_start` from `core/assessments_views.py` (lines 65-137).
The assessment has already been resolved (`get_object_or_404`).  Guards in
source order: requester must be a student, must be enrolled in the
assessment's course, must have strictly fewer attempts than
`attempts_allowed`, and `now` must not be before `open_at` nor after
`close_at` (absent bound: unbounded).  Each failing guard redirects with
no write; otherwise a new `Attempt` row is inserted with the next
attempt number.  `newId` stands for the fresh primary key. -/
def assessment_start (db : AssessDB) (asm : Assessment) (role : Role) (studentId : Nat)
    (now : ℤ) (newId : Nat) : AssessDB × StartOutcome :=
  if role ≠ Role.student then (db, StartOutcome.redirectDetail)
  else if (asm.courseId, studentId) ∉ db.enrollments then
    (db, StartOutcome.redirectDetail)
  else
    let existing_attempts :=
      (db.attempts.filter (fun a =>
        decide (a.assessmentId = asm.id) && decide (a.studentId = studentId))).length
    if existing_attempts ≥ asm.attempts_allowed then (db, StartOutcome.redirectDetail)
    else if ∃ o ∈ asm.open_at, now < o then
      (db, StartOutcome.redirectDetail)
    else if ∃ c ∈ asm.close_at, now > c then
      (db, StartOutcome.redirectDetail)
    else
      let att : Attempt :=
        { id := newId, studentId := studentId, assessmentId := asm.id
          attempt_number := existing_attempts + 1, is_submitted := false
          score := none, started_at := now, finished_at := none }
      ({ db with attempts := db.attempts ++ [att] }, StartOutcome.redirectTake newId)

/-- The conjunction of the four creation guards of `assessment_start`,
as the spec states them. -/
def startAllowed (db : AssessDB) (asm : Assessment) (role : Role) (studentId : Nat)
    (now : ℤ) : Prop :=
  role = Role.student ∧
  (asm.courseId, studentId) ∈ db.enrollments ∧
  (db.attempts.filter (fun a =>
    decide (a.assessmentId = asm.id) && decide (a.studentId = studentId))).length
      < asm.attempts_allowed ∧
  (∀ o ∈ asm.open_at, o ≤ now) ∧ (∀ c ∈ asm.close_at, now ≤ c)

/-- A universally quantified condition over a nullable column is
decidable. -/
instance optionAllDecidable (x : Option ℤ) (p : ℤ → Prop) [DecidablePred p] :
    Decidable (∀ o ∈ x, p o) :=
  match x with
  | none => Decidable.isTrue (by simp)
  | some a =>
    if h : p a then Decidable.isTrue (by simpa using h)
    else Decidable.isFalse (by simpa using h)

instance (db : AssessDB) (asm : Assessment) (role : Role) (studentId : Nat) (now : ℤ) :
    Decidable (startAllowed db asm role studentId now) := by
  unfold startAllowed
  infer_instance

/-- `_finalize_attempt_and_redirect` from `core/assessments_views.py`
(lines 143-179): a not-yet-submitted attempt is marked submitted with
`finished_at = now`, a still-null score defaulting to 0. -/
def finalizeAttempt (db : AssessDB) (att : Attempt) (now : ℤ) : AssessDB :=
  if att.is_submitted then db
  else
    updAttempt db att.id (fun a =>
      { a with is_submitted := true, finished_at := some now,
               score := some (a.score.getD 0) })

/-- The lazily-checked time limit of `assessment_take`: Python's
`if assessment.time_limit:` is falsy for both `None` and 0, and elapsed
minutes are compared with `>`. -/
def timeExceeded (asm : Assessment) (att : Attempt) (now : ℤ) : Prop :=
  match asm.time_limit with
  | none => False
  | some tl => 0 < tl ∧ ((now - att.started_at : ℤ) : ℚ) / 60 > (tl : ℚ)

instance (asm : Assessment) (att : Attempt) (now : ℤ) :
    Decidable (timeExceeded asm att now) := by
  unfold timeExceeded
  cases asm.time_limit <;> infer_instance

/-- The POST dictionary of `assessment_take`, split by the use each
handler branch makes of the single `question_{id}` field: objective
branches feed the value to a `Choice` primary-key lookup (`choiceVal`,
`none` when the field is absent or the empty string), the essay branch
stores it as text (`textVal`, the raw value before the `or ""`), and the
file branch looks at `request.FILES` (`fileVal`). -/
structure TakeForm where
  choiceVal : Nat → Option Nat
  textVal : Nat → Option String
  fileVal : Nat → Bool

/-- The answer row `Answer.objects.get_or_create(attempt=…, question=…)`
builds when none exists: model defaults `choice=None`, `text_answer=""`,
`file_answer=None`, `is_correct=False`. -/
def defaultAnswer (answerId attemptId questionId : Nat) : Answer :=
  { id := answerId, attemptId := attemptId, questionId := questionId
    choiceId := none, text_answer := "", file_answer := false, is_correct := false }

/-- The per-question loop of `assessment_take` POST processing
(`core/assessments_views.py` lines 243-292), threading the answer table,
the next fresh `Answer` primary key, `total_points` and `score_obtained`.
Per question: `total_points += points`; the answer row is fetched or
created; objective questions with a submitted value resolve it as a
choice id (an id matching no choice of the question: `Choice.DoesNotExist`
is passed over, leaving the row untouched) and a correct choice adds the
question's points; essay and file questions store their payload with
`is_correct = False`. -/
def processQuestions (choices : List Choice) (form : TakeForm) (attemptId : Nat) :
    List Question → List Answer → Nat → ℚ → ℚ → List Answer × Nat × ℚ × ℚ
  | [], answers, nextId, total_points, score_obtained =>
    (answers, nextId, total_points, score_obtained)
  | q :: rest, answers, nextId, total_points, score_obtained =>
    let total_points := total_points + q.points
    let found := answers.find? (fun a =>
      decide (a.attemptId = attemptId) && decide (a.questionId = q.id))
    let aid := match found with
      | some a => a.id
      | none => nextId
    let answers := match found with
      | some _ => answers
      | none => answers ++ [defaultAnswer nextId attemptId q.id]
    let nextId := match found with
      | some _ => nextId
      | none => nextId + 1
    match q.qtype with
    | QType.multiple_choice | QType.true_false =>
      match form.choiceVal q.id with
      | some cid =>
        match choices.find? (fun c => decide (c.id = cid) && decide (c.questionId = q.id)) with
        | some choice =>
          let answers := updAnswer answers aid (fun a =>
            { a with choiceId := some choice.id, is_correct := choice.is_correct,
                     text_answer := "", file_answer := false })
          let score_obtained :=
            if choice.is_correct then score_obtained + q.points else score_obtained
          processQuestions choices form attemptId rest answers nextId total_points score_obtained
        | none =>
          processQuestions choices form attemptId rest answers nextId total_points score_obtained
      | none =>
        processQuestions choices form attemptId rest answers nextId total_points score_obtained
    | QType.essay =>
      let answers := updAnswer answers aid (fun a =>
        { a with text_answer := (form.textVal q.id).getD "", choiceId := none,
                 is_correct := false })
      processQuestions choices form attemptId rest answers nextId total_points score_obtained
    | QType.file =>
      let answers := updAnswer answers aid (fun a =>
        { a with file_answer := if form.fileVal q.id then true else a.file_answer,
                 choiceId := none, is_correct := false })
      processQuestions choices form attemptId rest answers nextId total_points score_obtained

/-- Relation used to model `order_by('order')` on questions (stable,
ascending, like the SQL sort realised by the source's queries). -/
def questionOrderLE (a b : Question) : Prop := a.order ≤ b.order

instance : DecidableRel questionOrderLE := fun a b =>
  inferInstanceAs (Decidable (a.order ≤ b.order))

instance : IsTotal Question questionOrderLE :=
  ⟨fun a b => Nat.le_total a.order b.order⟩

instance : IsTrans Question questionOrderLE :=
  ⟨fun _ _ _ h1 h2 => Nat.le_trans h1 h2⟩

/-- `assessment.questions.all().order_by('order')`. -/
def questionsOf (db : AssessDB) (asm : Assessment) : List Question :=
  (db.questions.filter (fun q => decide (q.assessmentId = asm.id))).insertionSort questionOrderLE

/-- Outcome of `assessment_take`. -/
inductive TakeOutcome where
  | takeNotFound
  | redirectResult
  | renderedTake
deriving Repr, DecidableEq

/-- `assessment_take` from `core/assessments_views.py` (lines 185-320),
with the assessment resolved.  The attempt must belong to the requester;
a submitted attempt redirects to the result page; an exceeded time limit
force-finalises; otherwise a POST runs the question loop and then stores
`is_submitted = True`, `finished_at = now`, and
`score = round(score_obtained, 2) if total_points > 0 else 0`.
`nextAnswerId` stands for the auto-increment `Answer` primary key. -/
def assessment_take (db : AssessDB) (asm : Assessment) (attemptId studentId : Nat)
    (isPost : Bool) (form : TakeForm) (now : ℤ) (nextAnswerId : Nat) :
    AssessDB × TakeOutcome :=
  match db.attempts.find? (fun a =>
      decide (a.id = attemptId) && decide (a.assessmentId = asm.id) &&
      decide (a.studentId = studentId)) with
  | none => (db, TakeOutcome.takeNotFound)
  | some attempt =>
    let questions := questionsOf db asm
    if attempt.is_submitted then (db, TakeOutcome.redirectResult)
    else if timeExceeded asm attempt now then
      (finalizeAttempt db attempt now, TakeOutcome.redirectResult)
    else if isPost then
      let r := processQuestions db.choices form attempt.id questions db.answers nextAnswerId 0 0
      let total_points := r.2.2.1
      let score_obtained := r.2.2.2
      let db := { db with answers := r.1 }
      let db := updAttempt db attempt.id (fun a =>
        { a with is_submitted := true, finished_at := some now,
                 score := some (if total_points > 0 then roundTo2 score_obtained else 0) })
      (db, TakeOutcome.redirectResult)
    else (db, TakeOutcome.renderedTake)

/-- A raw text form value destined for Python `float()` (or `int()`):
absent or empty, present but non-numeric (on which `float`/`int` raise
`ValueError`), or numeric with the given value. -/
inductive RawNum where
  | absent
  | malformed
  | num (val : ℚ)
deriving DecidableEq

/-- A raw text form value destined for Python `int()` where only the
magnitude matters in this model. -/
inductive RawNat where
  | absent
  | malformed
  | num (val : Nat)
deriving Repr, DecidableEq

/-- Outcome of `grade_attempt`. -/
inductive GradeOutcome where
  | gradeNotFound
  | redirectSubmissions
  | renderedGrade
deriving Repr, DecidableEq

/-- Foreign-key dereference `answer.question`; the fallback row is never
reached on databases satisfying the theorems' hypothesis that every
answer's question exists. -/
def questionOfAnswer (questions : List Question) (a : Answer) : Question :=
  (questions.find? (fun q => decide (q.id = a.questionId))).getD
    ⟨0, 0, QType.essay, 0, 0⟩

/-- The grading loop of `grade_attempt` (`core/assessments_views.py`
lines 1159-1177): objective answers already marked correct contribute
their question's points; essay/file answers contribute
`float(request.POST.get(f"grade_{answer.id}"))` when that value is
truthy — a non-numeric value raises `ValueError` out of the handler. -/
def gradeLoop (questions : List Question) (grades : Nat → RawNum) :
    List Answer → ℚ → Except Unit ℚ
  | [], total_score => Except.ok total_score
  | a :: rest, total_score =>
    let q := questionOfAnswer questions a
    match q.qtype with
    | QType.multiple_choice | QType.true_false =>
      gradeLoop questions grades rest
        (if a.is_correct then total_score + q.points else total_score)
    | QType.essay | QType.file =>
      match grades a.id with
      | RawNum.absent => gradeLoop questions grades rest total_score
      | RawNum.malformed => Except.error ()
      | RawNum.num v => gradeLoop questions grades rest (total_score + v)

/-- `grade_attempt` from `core/assessments_views.py` (lines 1136-1202).
The decorators are `login_required` and `school_context_required` only —
`school_user` is received (with its role) but the handler performs no
role check.  A POST recomputes the score over the attempt's answers and
stores it with `is_submitted = True`. -/
def grade_attempt (db : AssessDB) (assessmentId attemptId : Nat) (schoolUserRole : Role)
    (isPost : Bool) (grades : Nat → RawNum) : Except Unit (AssessDB × GradeOutcome) :=
  match db.attempts.find? (fun a =>
      decide (a.id = attemptId) && decide (a.assessmentId = assessmentId)) with
  | none => Except.ok (db, GradeOutcome.gradeNotFound)
  | some attempt =>
    let answers := db.answers.filter (fun a => decide (a.attemptId = attempt.id))
    if isPost then
      match gradeLoop db.questions grades answers 0 with
      | Except.error e => Except.error e
      | Except.ok total_score =>
        Except.ok
          (updAttempt db attempt.id (fun a =>
            { a with score := some (roundTo2 total_score), is_submitted := true }),
           GradeOutcome.redirectSubmissions)
    else Except.ok (db, GradeOutcome.renderedGrade)

/-- Outcome of the routed `grade_attempt` including the decorator layer. -/
inductive GradeRouteOutcome where
  | redirectNoAccess
  | handled (out : GradeOutcome)
deriving Repr, DecidableEq

/-- The decorator pipeline in front of `grade_attempt`: only
`login_required` and `school_context_required` (`core/decorators.py`),
which resolve the requester's membership and pass `school_user` through;
there is no `teacher_required` on this view.  `member` is `none` for a
requester with no `SchoolUser` in the school, otherwise the member's
role. -/
def grade_attempt_route (db : AssessDB) (member : Option Role)
    (assessmentId attemptId : Nat) (isPost : Bool) (grades : Nat → RawNum) :
    Except Unit (AssessDB × GradeRouteOutcome) :=
  match member with
  | none => Except.ok (db, GradeRouteOutcome.redirectNoAccess)
  | some role =>
    match grade_attempt db assessmentId attemptId role isPost grades with
    | Except.error e => Except.error e
    | Except.ok (db', out) => Except.ok (db', GradeRouteOutcome.handled out)

/-- Relation used to model `sorted(difficult_questions, key=…["correct_rate"])`:
ascending in the (already rounded) correct rate. -/
def rateLE (a b : Nat × ℚ) : Prop := a.2 ≤ b.2

instance : DecidableRel rateLE := fun a b => inferInstanceAs (Decidable (a.2 ≤ b.2))

instance : IsTotal (Nat × ℚ) rateLE := ⟨fun a b => le_total a.2 b.2⟩

instance : IsTrans (Nat × ℚ) rateLE := ⟨fun _ _ _ h1 h2 => le_trans h1 h2⟩

/-- The view model rendered by `assessment_stats`: total submitted
attempts, `round(avg_score, 2)`, and per question
`(question id, round(correct_rate, 2))` sorted ascending by that rate. -/
structure StatsView where
  total : Nat
  avg_score : ℚ
  difficult : List (Nat × ℚ)
deriving Repr, DecidableEq

/-- `assessment_stats` from `core/assessments_views.py` (lines 1209-1275).
`Avg("score")` averages the non-null scores of the submitted attempts
(SQL `AVG` ignores nulls and is `None` on an empty set; the `or 0` then
yields 0).  Per question, all `Answer` rows referencing it are counted,
`correct_rate = 100 * correct / total` (0 with no answers), rounded to 2
decimals, and the list is sorted ascending by that rate. -/
def assessment_stats (db : AssessDB) (asm : Assessment) : StatsView :=
  let attempts := db.attempts.filter (fun a =>
    decide (a.assessmentId = asm.id) && a.is_submitted)
  let scores := attempts.filterMap (·.score)
  let avg_score : ℚ := if scores.length = 0 then 0 else scores.sum / (scores.length : ℚ)
  let difficult_questions :=
    (db.questions.filter (fun q => decide (q.assessmentId = asm.id))).map (fun q =>
      let total_ans := (db.answers.filter (fun a => decide (a.questionId = q.id))).length
      let correct_ans := (db.answers.filter (fun a =>
        decide (a.questionId = q.id) && a.is_correct)).length
      let correct_rate : ℚ :=
        if total_ans ≠ 0 then (correct_ans : ℚ) / (total_ans : ℚ) * 100 else 0
      (q.id, roundTo2 correct_rate))
  { total := attempts.length
    avg_score := roundTo2 avg_score
    difficult := difficult_questions.insertionSort rateLE }

/-- The numeric-field update of `question_edit` (`core/assessments_views.py`
lines 817-838): `order` and `points` are parsed inside
`try/except ValueError: pass`, so a malformed value silently keeps the
prior stored value; an absent field defaults to the prior value. -/
def question_edit_nums (q : Question) (rawOrder : RawNat) (rawPoints : RawNum) : Question :=
  let q := match rawOrder with
    | RawNat.absent => q
    | RawNat.malformed => q
    | RawNat.num n => { q with order := n }
  match rawPoints with
  | RawNum.absent => q
  | RawNum.malformed => q
  | RawNum.num v => { q with points := v }

/-- The numeric conversions of `assessment_create`
(`core/assessments_views.py` lines 513-521), *not* wrapped in any
`try`: `weight = float(weight_raw) if weight_raw not in (None, "") else 0`,
`attempts = int(attempts_raw) … else 1`, `time_limit = int(…) … else None`.
A malformed value raises `ValueError` out of the handler. -/
def assessment_create_nums (weightRaw : RawNum) (attemptsRaw timeLimitRaw : RawNat) :
    Except Unit (ℚ × Nat × Option Nat) :=
  match weightRaw with
  | RawNum.malformed => Except.error ()
  | weightVal =>
    match attemptsRaw with
    | RawNat.malformed => Except.error ()
    | attemptsVal =>
      match timeLimitRaw with
      | RawNat.malformed => Except.error ()
      | timeLimitVal =>
        let weight := match weightVal with
          | RawNum.num v => v
          | _ => 0
        let attempts := match attemptsVal with
          | RawNat.num n => n
          | _ => 1
        let time_limit := match timeLimitVal with
          | RawNat.num n => some n
          | _ => none
        Except.ok (weight, attempts, time_limit)

/-- Primary keys of the assessment slice are unique (database PK
constraints). -/
def AssessDB.WF (db : AssessDB) : Prop :=
  (db.attempts.map (·.id)).Nodup ∧ (db.questions.map (·.id)).Nodup ∧
  (db.choices.map (·.id)).Nodup ∧ (db.answers.map (·.id)).Nodup

instance (db : AssessDB) : Decidable db.WF := by
  unfold AssessDB.WF
  infer_instance

/-- The choice a submitted form value resolves to for an objective
question: the value interpreted as a `Choice` primary key, restricted to
the question's own choices. -/
def chosenChoice (choices : List Choice) (form : TakeForm) (q : Question) : Option Choice :=
  match form.choiceVal q.id with
  | none => none
  | some cid => choices.find? (fun c => decide (c.id = cid) && decide (c.questionId = q.id))

/-- Specification-level per-question score contribution: an objective
question whose chosen choice is marked correct earns its points;
everything else earns 0. -/
def earnedPoints (choices : List Choice) (form : TakeForm) (q : Question) : ℚ :=
  if q.qtype.isObjective then
    match chosenChoice choices form q with
    | some c => if c.is_correct then q.points else 0
    | none => 0
  else 0

/-- Specification-level description of the answer row the POST loop
leaves for one question of a freshly answered attempt. -/
def answerFor (choices : List Choice) (form : TakeForm) (attemptId : Nat) (q : Question)
    (aid : Nat) : Answer :=
  match q.qtype with
  | QType.multiple_choice | QType.true_false =>
    match chosenChoice choices form q with
    | some c =>
      { defaultAnswer aid attemptId q.id with choiceId := some c.id, is_correct := c.is_correct }
    | none => defaultAnswer aid attemptId q.id
  | QType.essay =>
    { defaultAnswer aid attemptId q.id with text_answer := (form.textVal q.id).getD "" }
  | QType.file =>
    { defaultAnswer aid attemptId q.id with file_answer := form.fileVal q.id }

/-- The answer rows the POST loop appends for a list of questions, with
consecutive fresh primary keys. -/
def createdAnswers (choices : List Choice) (form : TakeForm) (attemptId : Nat) :
    List Question → Nat → List Answer
  | [], _ => []
  | q :: rest, nextId =>
    answerFor choices form attemptId q nextId ::
      createdAnswers choices form attemptId rest (nextId + 1)

/-- Number of `Answer` rows of one attempt answering one question. -/
def countAnswersFor (answers : List Answer) (attemptId qid : Nat) : Nat :=
  (answers.filter (fun a =>
    decide (a.attemptId = attemptId) && decide (a.questionId = qid))).length

/-- Specification-level sum of the points of the objective answers whose
stored `is_correct` flag is set (the auto-graded part `grade_attempt`
recomputes). -/
def objectiveCorrectPoints (questions : List Question) (answers : List Answer) : ℚ :=
  ((answers.filter (fun a =>
    (questionOfAnswer questions a).qtype.isObjective && a.is_correct)).map
      (fun a => (questionOfAnswer questions a).points)).sum

/-- Specification-level sum of the numeric per-answer grade fields
entered for the essay/file answers (an absent field contributes 0). -/
def essayGradeSum (questions : List Question) (grades : Nat → RawNum)
    (answers : List Answer) : ℚ :=
  ((answers.filter (fun a =>
    !(questionOfAnswer questions a).qtype.isObjective)).map
      (fun a => match grades a.id with | RawNum.num v => v | _ => 0)).sum

/-- C2 counterexample state: assessment 1 with a 5-point multiple-choice
question (choice 1 correct) and a (-5)-point essay question — `points`
is a `DecimalField` with no sign validator and both `question_create`
and `question_edit` accept a negative form value.  Attempt 1 of student
1 is in progress. -/
def exDbC2 : AssessDB :=
  { enrollments := [(1, 1)]
    attempts := [⟨1, 1, 1, 1, false, none, 0, none⟩]
    questions := [⟨1, 1, QType.multiple_choice, 1, 5⟩, ⟨2, 1, QType.essay, 2, -5⟩]
    choices := [⟨1, 1, true⟩]
    answers := [] }

/-- The assessment of the C2 examples. -/
def exAsmC2 : Assessment := ⟨1, 1, 1, none, none, none⟩

/-- C2 counterexample form: the correct choice for question 1, nothing
for the essay. -/
def exFormC2 : TakeForm :=
  { choiceVal := fun qid => if qid = 1 then some 1 else none
    textVal := fun _ => none
    fileVal := fun _ => false }

/-- C2 example state from the spec: two 5-point multiple-choice
questions; choices 1 (correct) and 2 for question 1, choices 3 (correct)
and 4 for question 2. -/
def exDbC2w : AssessDB :=
  { enrollments := [(1, 1)]
    attempts := [⟨1, 1, 1, 1, false, none, 0, none⟩]
    questions := [⟨1, 1, QType.multiple_choice, 1, 5⟩, ⟨2, 1, QType.multiple_choice, 2, 5⟩]
    choices := [⟨1, 1, true⟩, ⟨2, 1, false⟩, ⟨3, 2, true⟩, ⟨4, 2, false⟩]
    answers := [] }

/-- C2 example form: question 1 answered correctly, question 2 answered
incorrectly. -/
def exFormC2w : TakeForm :=
  { choiceVal := fun qid => if qid = 1 then some 1 else if qid = 2 then some 4 else none
    textVal := fun _ => none
    fileVal := fun _ => false }

/-- C3 state: student 1 enrolled in course 1 and already holding two
attempts on assessment 1. -/
def exDbC3 : AssessDB :=
  { enrollments := [(1, 1)]
    attempts := [⟨1, 1, 1, 1, true, some 5, 0, some 10⟩, ⟨2, 1, 1, 2, true, some 5, 20, some 30⟩]
    questions := []
    choices := []
    answers := [] }

/-- C3 assessment with `attempts_allowed = 2` and no time window. -/
def exAsmC3 : Assessment := ⟨1, 1, 2, none, none, none⟩

/-- C3 assessment already closed (`close_at` in the past). -/
def exAsmC3closed : Assessment := ⟨1, 1, 2, none, none, some 50⟩

/-- C4 state: submitted attempt 1 holding a correct answer (id 1) to a
5-point multiple-choice question and an ungraded answer (id 2) to a
10-point essay question. -/
def exDbC4 : AssessDB :=
  { enrollments := [(1, 1)]
    attempts := [⟨1, 1, 1, 1, true, some 5, 0, some 10⟩]
    questions := [⟨1, 1, QType.multiple_choice, 1, 5⟩, ⟨2, 1, QType.essay, 2, 10⟩]
    choices := [⟨1, 1, true⟩]
    answers := [⟨1, 1, 1, some 1, "", false, true⟩, ⟨2, 1, 2, none, "an essay", false, false⟩] }

/-- C4 grade form: `grade_2 = 3.5`, nothing else. -/
def exGradesC4 : Nat → RawNum :=
  fun aid => if aid = 2 then RawNum.num (7/2) else RawNum.absent

/-- C7 counterexample grade form: `grade_2` is present but non-numeric. -/
def exGradesC7 : Nat → RawNum :=
  fun aid => if aid = 2 then RawNum.malformed else RawNum.absent

/-- C5 counterexample state: one question of assessment 1 with three
answers of which one is correct. -/
def exDbC5 : AssessDB :=
  { enrollments := []
    attempts := [⟨1, 1, 1, 1, true, some 5, 0, some 10⟩]
    questions := [⟨1, 1, QType.multiple_choice, 1, 5⟩]
    choices := []
    answers := [⟨1, 1, 1, none, "", false, true⟩, ⟨2, 2, 1, none, "", false, false⟩,
                ⟨3, 3, 1, none, "", false, false⟩] }

/-- The assessment of the C5 examples. -/
def exAsmC5 : Assessment := ⟨1, 1, 1, none, none, none⟩

/-- C5 witness state: the question is answered by 4 students, 3
correctly; one submitted attempt with score 5. -/
def exDbC5w : AssessDB :=
  { enrollments := []
    attempts := [⟨1, 1, 1, 1, true, some 5, 0, some 10⟩]
    questions := [⟨1, 1, QType.multiple_choice, 1, 5⟩]
    choices := []
    answers := [⟨1, 1, 1, none, "", false, true⟩, ⟨2, 2, 1, none, "", false, true⟩,
                ⟨3, 3, 1, none, "", false, true⟩, ⟨4, 4, 1, none, "", false, false⟩] }

/-- C10 state: assessment 1 with a multiple-choice question answered with
a valid choice id, a multiple-choice question left blank, and an essay
question; attempt 1 is in progress with no answer rows yet.  One answer
row of another attempt to question 2 is present. -/
def exDbC10 : AssessDB :=
  { enrollments := [(1, 1)]
    attempts := [⟨1, 1, 1, 1, false, none, 0, none⟩]
    questions := [⟨1, 1, QType.multiple_choice, 1, 5⟩, ⟨2, 1, QType.multiple_choice, 2, 5⟩,
                  ⟨3, 1, QType.essay, 3, 5⟩]
    choices := [⟨1, 1, true⟩]
    answers := [⟨7, 9, 2, none, "", false, false⟩] }

/-- C10 form: a valid choice for question 1, question 2 blank, some text
for question 3. -/
def exFormC10 : TakeForm :=
  { choiceVal := fun qid => if qid = 1 then some 1 else none
    textVal := fun qid => if qid = 3 then some "my answer" else none
    fileVal := fun _ => false }

/-- Replace the answer table of the state. -/
def withAnswers (db : AssessDB) (ans : List Answer) : AssessDB :=
  { db with answers := ans }

/-- The attempt update stored by a POST of `assessment_take`. -/
def submitScore (now : ℤ) (scoreVal : ℚ) (a : Attempt) : Attempt :=
  { a with is_submitted := true, finished_at := some now, score := some scoreVal }

/-- The score a POST of `assessment_take` stores, per the amended claim:
the rounded objective-correct sum if the total of all question points is
positive, else literal 0. -/
def takeScoreVal (db : AssessDB) (asm : Assessment) (form : TakeForm) : ℚ :=
  if ((questionsOf db asm).map (·.points)).sum > 0
  then roundTo2 (((questionsOf db asm).map (earnedPoints db.choices form)).sum)
  else 0

/-- The attempt update stored by a POST of `grade_attempt`. -/
def gradeUpd (totalScore : ℚ) (a : Attempt) : Attempt :=
  { a with score := some (roundTo2 totalScore), is_submitted := true }

/-- Evaluation helper for `ratFloor` at a concrete rational. -/
theorem ratFloor_eval (q : ℚ) (n z : ℤ) (d : ℕ) (hn : q.num = n) (hd : q.den = d)
    (hz : n.fdiv (d : ℤ) = z) : ratFloor q = z := by
  rw [ratFloor, hn, hd, hz]

/-- Evaluation helper for `roundTo2` at a concrete rational. -/
theorem roundTo2_eval (q r : ℚ) (z : ℤ) (h : q * 100 + 1/2 = r) (hz : ratFloor r = z) :
    roundTo2 q = (z : ℚ) / 100 := by
  rw [roundTo2, h, hz]

/-- Evaluation helper for `roundTo1` at a concrete rational. -/
theorem roundTo1_eval (q r : ℚ) (z : ℤ) (h : q * 10 + 1/2 = r) (hz : ratFloor r = z) :
    roundTo1 q = (z : ℚ) / 10 := by
  rw [roundTo1, h, hz]

/-- Updating the row with a given key in a key-unique table: the updated
row is present and is the only row carrying that key. -/
theorem updById_mem_unique {α : Type} (key : α → Nat) (l : List α) (x : α) (f : α → α)
    (hn : (l.map key).Nodup) (hx : x ∈ l) (hk : key (f x) = key x) :
    f x ∈ l.map (fun a => if key a = key x then f a else a) ∧
      ∀ b ∈ l.map (fun a => if key a = key x then f a else a), key b = key x → b = f x := by
  constructor
  · have h1 : (fun a => if key a = key x then f a else a) x = f x := by simp
    have := List.mem_map_of_mem (fun a => if key a = key x then f a else a) hx
    rwa [h1] at this
  · intro b hb hkey
    rcases List.mem_map.mp hb with ⟨a, ha, hab⟩
    by_cases hcase : key a = key x
    · have hax : a = x := List.inj_on_of_nodup_map hn ha hx (by rw [hcase])
      subst hax
      simp only [if_pos hcase] at hab
      exact hab.symm
    · simp only [if_neg hcase] at hab
      subst hab
      exact absurd hkey hcase

/-- C8 (confirmed): deleting a category with no linked course in the
current school removes it; with at least one linked course the POST is
rejected, the state is unchanged, and the linked-course count is
interpolated into the warning message. -/
theorem category_delete_spec (db : CatDB) (schoolId categoryId : Nat)
    (h : categoryId ∈ db.categories) :
    ((db.courses.filter (fun c =>
        decide (c.categoryId = some categoryId) && decide (c.schoolId = schoolId))).length = 0 →
      (category_delete db schoolId categoryId true).2 = CatDelOutcome.deletedOk categoryId ∧
      categoryId ∉ (category_delete db schoolId categoryId true).1.categories) ∧
    (∀ n, (db.courses.filter (fun c =>
        decide (c.categoryId = some categoryId) && decide (c.schoolId = schoolId))).length = n →
      0 < n →
      category_delete db schoolId categoryId true =
        (db, CatDelOutcome.rejectedLinked categoryId n)) := by
  have hc : db.categories.contains categoryId = true := by
    simpa [List.elem_iff] using h
  constructor
  · intro hz
    rw [category_delete]
    simp only [hc, if_pos rfl, hz]
    simp
  · intro n hn hpos
    rw [category_delete]
    simp only [hc, if_pos rfl, hn]
    have : ¬ (n = 0) := Nat.pos_iff_ne_zero.mp hpos
    simp [Nat.pos_iff_ne_zero.mp hpos, hpos]

/-- C8 witness: in the example school state, deleting category 1 (no
linked course in school 1) succeeds; deleting category 2 (one linked
course) is rejected with count 1 and no state change. -/
theorem category_delete_spec_witness :
    (1 ∈ exDbC8.categories ∧
      (category_delete exDbC8 1 1 true).2 = CatDelOutcome.deletedOk 1 ∧
      1 ∉ (category_delete exDbC8 1 1 true).1.categories) ∧
    (2 ∈ exDbC8.categories ∧
      category_delete exDbC8 1 2 true = (exDbC8, CatDelOutcome.rejectedLinked 2 1)) :=
  ⟨⟨by decide, (category_delete_spec exDbC8 1 1 (by decide)).1 (by decide)⟩,
   ⟨by decide, (category_delete_spec exDbC8 1 2 (by decide)).2 1 (by decide) (by decide)⟩⟩

/-- C3 (confirmed): a `start` request creates a new `Attempt` row exactly
when all four guards hold — requester is a student, an enrollment for
(student, course) exists, the existing attempt count is below
`attempts_allowed`, and `now` lies in the closed window `[open_at,
close_at]` (a missing bound unbounded); when any guard fails the handler
redirects to the detail page with the attempt table unchanged. -/
theorem assessment_start_guard (db : AssessDB) (asm : Assessment) (role : Role)
    (studentId : Nat) (now : ℤ) (newId : Nat) :
    (startAllowed db asm role studentId now →
      assessment_start db asm role studentId now newId =
        ({ db with attempts := db.attempts ++
            [{ id := newId, studentId := studentId, assessmentId := asm.id
               attempt_number := (db.attempts.filter (fun a =>
                 decide (a.assessmentId = asm.id) && decide (a.studentId = studentId))).length + 1
               is_submitted := false, score := none, started_at := now, finished_at := none }] },
         StartOutcome.redirectTake newId)) ∧
    (¬ startAllowed db asm role studentId now →
      assessment_start db asm role studentId now newId = (db, StartOutcome.redirectDetail)) := by
  constructor
  · rintro ⟨hrole, henr, hcount, hopen, hclose⟩
    have hopen' : ¬ ∃ o, asm.open_at = some o ∧ now < o := by
      rintro ⟨o, ho, hlt⟩
      exact absurd hlt (not_lt.mpr (hopen o ho))
    have hclose' : ¬ ∃ c, asm.close_at = some c ∧ c < now := by
      rintro ⟨c, hc, hlt⟩
      exact absurd hlt (not_lt.mpr (hclose c hc))
    rw [assessment_start]
    simp [hrole, henr, Nat.not_le.mpr hcount, hopen', hclose']
  · intro hno
    rw [assessment_start]
    by_cases hrole : role = Role.student
    · by_cases henr : (asm.courseId, studentId) ∈ db.enrollments
      · by_cases hcount : (db.attempts.filter (fun a =>
            decide (a.assessmentId = asm.id) && decide (a.studentId = studentId))).length
              < asm.attempts_allowed
        · by_cases hopen : ∀ o ∈ asm.open_at, o ≤ now
          · by_cases hclose : ∀ c ∈ asm.close_at, now ≤ c
            · exact absurd ⟨hrole, henr, hcount, hopen, hclose⟩ hno
            · have hcl : ∃ c, asm.close_at = some c ∧ c < now := by
                push_neg at hclose
                rcases hclose with ⟨c, hc, hlt⟩
                exact ⟨c, hc, hlt⟩
              simp [hrole, henr, Nat.not_le.mpr hcount, hcl]
          · have hop : ∃ o, asm.open_at = some o ∧ now < o := by
              push_neg at hopen
              rcases hopen with ⟨o, ho, hlt⟩
              exact ⟨o, ho, hlt⟩
            simp [hrole, henr, Nat.not_le.mpr hcount, hop]
        · simp [hrole, henr, Nat.le_of_not_lt hcount]
      · simp [hrole, henr]
    · simp [hrole]

/-- C3 witness: in the example state, a third `start` by student 1 on the
`attempts_allowed = 2` assessment is rejected with no new row, and a
`start` on the already-closed assessment is rejected as well although the
student has no attempt on it. -/
theorem assessment_start_guard_witness :
    (¬ startAllowed exDbC3 exAsmC3 Role.student 1 100 ∧
      assessment_start exDbC3 exAsmC3 Role.student 1 100 3 =
        (exDbC3, StartOutcome.redirectDetail)) ∧
    (¬ startAllowed exDbC3 exAsmC3closed Role.student 2 100 ∧
      assessment_start exDbC3 exAsmC3closed Role.student 2 100 3 =
        (exDbC3, StartOutcome.redirectDetail)) :=
  ⟨⟨by decide, (assessment_start_guard exDbC3 exAsmC3 Role.student 1 100 3).2 (by decide)⟩,
   ⟨by decide, (assessment_start_guard exDbC3 exAsmC3closed Role.student 2 100 3).2 (by decide)⟩⟩

/-- Filtering a mapped list has the same length as filtering by the
composed predicate. -/
theorem length_filter_map_eq {α β : Type} (l : List α) (f : α → β) (p : β → Bool) :
    ((l.map f).filter p).length = (l.filter (fun a => p (f a))).length := by
  induction l with
  | nil => rfl
  | cons a t ih =>
    simp only [List.map_cons, List.filter_cons]
    cases h : p (f a) <;> simp [h, ih]

/-- In a table whose keys are unique, filtering for the key of a present
row yields exactly that one row. -/
theorem filter_key_eq_one {α β : Type} [DecidableEq β] (l : List α) (key : α → β) (t : β)
    (hn : (l.map key).Nodup) (x : α) (hx : x ∈ l) (hxt : key x = t) :
    (l.filter fun a => decide (key a = t)).length = 1 := by
  induction l with
  | nil => cases hx
  | cons a tl ih =>
    rw [List.map_cons, List.nodup_cons] at hn
    rcases List.mem_cons.mp hx with rfl | hxt'
    · rw [List.filter_cons, if_pos (by simp [hxt])]
      have hnil : tl.filter (fun b => decide (key b = t)) = [] := by
        apply List.filter_eq_nil_iff.mpr
        intro b hb
        simp only [decide_eq_true_eq]
        intro hbt
        have hkx : key x = key b := by rw [hxt, hbt]
        exact hn.1 (by rw [hkx]; exact List.mem_map_of_mem key hb)
      simp [hnil]
    · have hka : ¬ (key a = t) := by
        intro hat
        exact hn.1 (by rw [← hxt] at hat; rw [hat]; exact List.mem_map_of_mem key hxt')
      rw [List.filter_cons, if_neg (by simp [hka])]
      exact ih hn.2 hxt'

/-- The `(student, lesson)` filter in `&&`-of-`decide` form agrees with
the pair-keyed form. -/
theorem progressPairFilter (s l : Nat) (p : Progress) :
    (decide (p.studentId = s) && decide (p.lessonId = l)) =
      decide ((p.studentId, p.lessonId) = (s, l)) := by
  by_cases h1 : p.studentId = s <;> by_cases h2 : p.lessonId = l <;> simp [h1, h2]

/-- `progUpd` leaves the key columns untouched and is idempotent. -/
theorem progUpd_keys (s c l : Nat) (now : ℤ) (p : Progress) :
    (progUpd s c l now p).studentId = p.studentId ∧
    (progUpd s c l now p).courseId = p.courseId ∧
    (progUpd s c l now p).lessonId = p.lessonId := by
  unfold progUpd
  split <;> exact ⟨rfl, rfl, rfl⟩

/-- Applying `progUpd` twice with the same timestamp is the same as
applying it once. -/
theorem progUpd_idem (s c l : Nat) (now : ℤ) (p : Progress) :
    progUpd s c l now (progUpd s c l now p) = progUpd s c l now p := by
  by_cases h : p.studentId = s ∧ p.courseId = c ∧ p.lessonId = l
  · simp [progUpd, h]
  · simp [progUpd, h]

/-- The `(student, course, lesson)` lookup predicate is invariant under
`progUpd`. -/
theorem progUpd_trip_pred (s c l : Nat) (now : ℤ) (p : Progress) :
    (decide ((progUpd s c l now p).studentId = s) &&
       decide ((progUpd s c l now p).courseId = c) &&
       decide ((progUpd s c l now p).lessonId = l)) =
      (decide (p.studentId = s) && decide (p.courseId = c) && decide (p.lessonId = l)) := by
  rcases progUpd_keys s c l now p with ⟨h1, h2, h3⟩
  rw [h1, h2, h3]

/-- C6 (amended): provided every existing `Progress` row of the student
for the lesson carries the *same* course (otherwise `get_or_create`
raises `IntegrityError`, see the counterexample), marking a lesson
complete succeeds and is idempotent: a second identical call returns the
very same state, which holds exactly one `Progress` row for `(student,
lesson)`, that row having `progress_percentage = 100` and
`is_completed = True`. -/
theorem mark_lesson_complete_idem (db : ProgressDB) (s c l : Nat) (now : ℤ)
    (hwf : db.WF)
    (hsame : ∀ p ∈ db.progresses, p.studentId = s → p.lessonId = l → p.courseId = c) :
    ∃ db1, mark_lesson_as_completed db s c l now = Except.ok db1 ∧
      mark_lesson_as_completed db1 s c l now = Except.ok db1 ∧
      (db1.progresses.filter fun p =>
        decide (p.studentId = s) && decide (p.lessonId = l)).length = 1 ∧
      ∀ p ∈ db1.progresses, p.studentId = s → p.lessonId = l →
        p.progress_percentage = 100 ∧ p.is_completed = true := by
  cases hfind : db.progresses.find? (fun p =>
      decide (p.studentId = s) && decide (p.courseId = c) && decide (p.lessonId = l)) with
  | some r =>
    have hr : r ∈ db.progresses := List.mem_of_find?_eq_some hfind
    have hrpred := List.find?_some hfind
    have hrs : r.studentId = s := by
      simp only [Bool.and_eq_true, decide_eq_true_eq] at hrpred
      exact hrpred.1.1
    have hrc : r.courseId = c := by
      simp only [Bool.and_eq_true, decide_eq_true_eq] at hrpred
      exact hrpred.1.2
    have hrl : r.lessonId = l := by
      simp only [Bool.and_eq_true, decide_eq_true_eq] at hrpred
      exact hrpred.2
    have hcomp : (fun p => decide (p.studentId = s) && decide (p.courseId = c) &&
        decide (p.lessonId = l)) ∘ progUpd s c l now =
        (fun p => decide (p.studentId = s) && decide (p.courseId = c) &&
          decide (p.lessonId = l)) :=
      funext fun p => progUpd_trip_pred s c l now p
    have hfind2 : (db.progresses.map (progUpd s c l now)).find? (fun p =>
        decide (p.studentId = s) && decide (p.courseId = c) && decide (p.lessonId = l)) =
        some (progUpd s c l now r) := by
      rw [List.find?_map, hcomp, hfind]
      rfl
    refine ⟨{ db with progresses := db.progresses.map (progUpd s c l now) }, ?_, ?_, ?_, ?_⟩
    · simp only [mark_lesson_as_completed, hfind]
    · simp only [mark_lesson_as_completed, hfind2]
      rw [List.map_map]
      have hmapid2 : List.map (progUpd s c l now ∘ progUpd s c l now) db.progresses =
          List.map (progUpd s c l now) db.progresses :=
        List.map_congr_left (fun p _ => progUpd_idem s c l now p)
      rw [hmapid2]
    · rw [length_filter_map_eq]
      have hcong : db.progresses.filter (fun a =>
          decide ((progUpd s c l now a).studentId = s) &&
            decide ((progUpd s c l now a).lessonId = l)) =
          db.progresses.filter (fun a =>
            decide ((a.studentId, a.lessonId) = (s, l))) := by
        apply List.filter_congr
        intro p _
        rcases progUpd_keys s c l now p with ⟨h1, _, h3⟩
        rw [h1, h3, progressPairFilter]
      rw [hcong]
      exact filter_key_eq_one db.progresses (fun p => (p.studentId, p.lessonId)) (s, l)
        hwf.2 r hr (by simp [hrs, hrl])
    · intro p hp hps hpl
      rcases List.mem_map.mp hp with ⟨p0, hp0, rfl⟩
      by_cases hcond : p0.studentId = s ∧ p0.courseId = c ∧ p0.lessonId = l
      · simp [progUpd, hcond]
      · exfalso
        rcases progUpd_keys s c l now p0 with ⟨h1, _, h3⟩
        rw [h1] at hps
        rw [h3] at hpl
        exact hcond ⟨hps, hsame p0 hp0 hps hpl, hpl⟩
  | none =>
    have hnone := List.find?_eq_none.mp hfind
    have hnotrip : ∀ p ∈ db.progresses,
        ¬ (p.studentId = s ∧ p.courseId = c ∧ p.lessonId = l) := by
      intro p hp hcond
      exact hnone p hp (by simp [hcond.1, hcond.2.1, hcond.2.2])
    have hany : db.progresses.any (fun p =>
        decide (p.studentId = s) && decide (p.lessonId = l)) = false := by
      rw [Bool.eq_false_iff]
      intro htrue
      rcases List.any_eq_true.mp htrue with ⟨p, hp, hpred⟩
      simp only [Bool.and_eq_true, decide_eq_true_eq] at hpred
      exact hnotrip p hp ⟨hpred.1, hsame p hp hpred.1 hpred.2, hpred.2⟩
    have hcreated : (⟨s, c, l, true, 100, some now⟩ : Progress) ∈
        db.progresses ++ [⟨s, c, l, true, 100, some now⟩] :=
      List.mem_append_right _ (by simp)
    have hfind2 : (db.progresses ++ [(⟨s, c, l, true, 100, some now⟩ : Progress)]).find?
        (fun p => decide (p.studentId = s) && decide (p.courseId = c) &&
          decide (p.lessonId = l)) = some ⟨s, c, l, true, 100, some now⟩ := by
      rw [List.find?_append, hfind]
      simp
    refine ⟨{ db with progresses :=
      db.progresses ++ [⟨s, c, l, true, 100, some now⟩] }, ?_, ?_, ?_, ?_⟩
    · simp only [mark_lesson_as_completed, hfind, hany]
      rfl
    · simp only [mark_lesson_as_completed, hfind2]
      have hmapid : (db.progresses ++ [(⟨s, c, l, true, 100, some now⟩ : Progress)]).map
          (progUpd s c l now) = db.progresses ++ [⟨s, c, l, true, 100, some now⟩] := by
        rw [List.map_congr_left (g := fun a => a), List.map_id']
        intro p hp
        rcases List.mem_append.mp hp with hpold | hpnew
        · exact if_neg (hnotrip p hpold)
        · have hpe : p = ⟨s, c, l, true, 100, some now⟩ := List.mem_singleton.mp hpnew
          subst hpe
          simp [progUpd]
      rw [hmapid]
    · rw [List.filter_append]
      have h1 : db.progresses.filter (fun p =>
          decide (p.studentId = s) && decide (p.lessonId = l)) = [] := by
        apply List.filter_eq_nil_iff.mpr
        intro p hp
        intro htrue
        have hcontra : db.progresses.any (fun p =>
            decide (p.studentId = s) && decide (p.lessonId = l)) = true :=
          List.any_eq_true.mpr ⟨p, hp, htrue⟩
        rw [hany] at hcontra
        cases hcontra
      rw [h1]
      simp
    · intro p hp hps hpl
      rcases List.mem_append.mp hp with hpold | hpnew
      · exfalso
        have hcontra : db.progresses.any (fun p =>
            decide (p.studentId = s) && decide (p.lessonId = l)) = true :=
          List.any_eq_true.mpr ⟨p, hpold, by simp [hps, hpl]⟩
        rw [hany] at hcontra
        cases hcontra
      · have hpe : p = ⟨s, c, l, true, 100, some now⟩ := List.mem_singleton.mp hpnew
        subst hpe
        exact ⟨rfl, rfl⟩

/-- C6 counterexample: student 1's unique `Progress` row for lesson 1
exists under course 2 (not completed).  Both calls of
`mark_lesson_as_completed(student=1, course=1, lesson=1)` raise
`IntegrityError` (the `get_or_create` keyed on `(student, course,
lesson)` tries to insert a row violating
`unique_together ('student', 'lesson')`), so after the second call the
unique row for `(student 1, lesson 1)` still has
`progress_percentage = 0` and `is_completed = False`, contradicting the
claim. -/
theorem mark_lesson_complete_idem_cex :
    markCompletedRun (markCompletedRun exDbC6 1 1 1 5) 1 1 1 6 = exDbC6 ∧
    mark_lesson_as_completed exDbC6 1 1 1 5 = Except.error () ∧
    (exDbC6.progresses.filter fun p =>
      decide (p.studentId = 1) && decide (p.lessonId = 1)).map
        (fun p => (p.progress_percentage, p.is_completed)) = [(0, false)] := by
  exact ⟨rfl, rfl, by decide⟩

/-- C6 witness: on a fresh state with no progress rows, marking lesson 1
of course 1 complete twice succeeds, is idempotent, and leaves exactly
one row at 100%/completed. -/
theorem mark_lesson_complete_idem_witness :
    exDbC6w.WF ∧
    ∃ db1, mark_lesson_as_completed exDbC6w 1 1 1 5 = Except.ok db1 ∧
      mark_lesson_as_completed db1 1 1 1 5 = Except.ok db1 ∧
      (db1.progresses.filter fun p =>
        decide (p.studentId = 1) && decide (p.lessonId = 1)).length = 1 ∧
      ∀ p ∈ db1.progresses, p.studentId = 1 → p.lessonId = 1 →
        p.progress_percentage = 100 ∧ p.is_completed = true :=
  ⟨by decide, mark_lesson_complete_idem exDbC6w 1 1 1 5 (by decide) (by decide)⟩

/-- On `Nat`, boolean equality agrees with `decide` of propositional
equality. -/
theorem natBeq_decide (a b : Nat) : (a == b) = decide (a = b) := by
  by_cases h : a = b <;> simp [h]

/-- The length of a filter by a disjunction of disjoint predicates is the
sum of the two filter lengths. -/
theorem filter_or_length {α : Type} (l : List α) (p q : α → Bool)
    (hdisj : ∀ a ∈ l, ¬(p a = true ∧ q a = true)) :
    (l.filter (fun a => p a || q a)).length = (l.filter p).length + (l.filter q).length := by
  induction l with
  | nil => rfl
  | cons a t ih =>
    have ht : ∀ b ∈ t, ¬(p b = true ∧ q b = true) := fun b hb => hdisj b (List.mem_cons_of_mem a hb)
    have hih := ih ht
    simp only [List.filter_cons]
    cases hp : p a <;> cases hq : q a
    · simp [hp, hq, hih]
    · simp [hp, hq, hih]
      omega
    · simp [hp, hq, hih]
      omega
    · exact absurd ⟨hp, hq⟩ (hdisj a (List.mem_cons_self a t))

/-- When the keys of the base-filtered rows are unique, at most one row
matches a fixed key, so the filter length is 1 or 0 according to
existence. -/
theorem filter_key_single {α : Type} (rows : List α) (k : α → Nat) (base : α → Bool) (t : Nat)
    (hu : ((rows.filter base).map k).Nodup) :
    (rows.filter (fun r => base r && decide (k r = t))).length =
      if rows.any (fun r => base r && decide (k r = t)) then 1 else 0 := by
  induction rows with
  | nil => rfl
  | cons a rest ih =>
    cases hba : base a
    · have hu' : ((rest.filter base).map k).Nodup := by
        rwa [List.filter_cons, if_neg (by simp [hba])] at hu
      simp [List.filter_cons, List.any_cons, hba, ih hu']
    · have hu2 : k a ∉ (rest.filter base).map k ∧ ((rest.filter base).map k).Nodup := by
        rw [List.filter_cons, if_pos (by simp [hba]), List.map_cons, List.nodup_cons] at hu
        exact hu
      cases hkt : decide (k a = t)
      · simp [List.filter_cons, List.any_cons, hba, hkt, ih hu2.2]
      · have hkat : k a = t := of_decide_eq_true hkt
        have hrest0 : rest.filter (fun r => base r && decide (k r = t)) = [] := by
          apply List.filter_eq_nil_iff.mpr
          intro b hb hbt
          simp only [Bool.and_eq_true, decide_eq_true_eq] at hbt
          apply hu2.1
          rw [hkat, ← hbt.2]
          exact List.mem_map_of_mem k (List.mem_filter.mpr ⟨hb, hbt.1⟩)
        have hany0 : (rest.any fun r => base r && decide (k r = t)) = false := by
          rw [Bool.eq_false_iff]
          intro htrue
          rcases List.any_eq_true.mp htrue with ⟨b, hb, hbt⟩
          have : b ∈ rest.filter (fun r => base r && decide (k r = t)) :=
            List.mem_filter.mpr ⟨hb, hbt⟩
          rw [hrest0] at this
          cases this
        simp [List.filter_cons, List.any_cons, hba, hkt, hrest0, hany0]

/-- Counting base-filtered rows whose key lies in a duplicate-free key
list equals counting the keys that have such a row — provided each key
has at most one base-filtered row (key uniqueness). -/
theorem count_rows_eq_count_keys {α : Type} (rows : List α) (k : α → Nat) (base : α → Bool) :
    ∀ keys : List Nat, keys.Nodup → ((rows.filter base).map k).Nodup →
    (rows.filter (fun r => base r && keys.contains (k r))).length =
      (keys.filter (fun t => rows.any (fun r => base r && decide (k r = t)))).length := by
  intro keys
  induction keys with
  | nil =>
    intro _ _
    have h0 : rows.filter (fun r => base r && ([] : List Nat).contains (k r)) = [] := by
      apply List.filter_eq_nil_iff.mpr
      intro b _
      simp
    simp [h0]
  | cons t rest ih =>
    intro hk hu
    rw [List.nodup_cons] at hk
    have hsplit : rows.filter (fun r => base r && (t :: rest).contains (k r)) =
        rows.filter (fun r => (base r && decide (k r = t)) || (base r && rest.contains (k r))) := by
      apply List.filter_congr
      intro r _
      show (base r && (t :: rest).contains (k r)) = _
      have hc : (t :: rest).contains (k r) = (decide (k r = t) || rest.contains (k r)) := by
        rw [List.contains_cons, natBeq_decide]
      rw [hc, Bool.and_or_distrib_left]
    rw [hsplit]
    rw [filter_or_length]
    · rw [filter_key_single rows k base t hu, ih hk.2 hu, List.filter_cons]
      cases hany : rows.any (fun r => base r && decide (k r = t))
      · simp [hany]
      · simp [hany, Nat.add_comm]
    · intro a _ hboth
      rcases hboth with ⟨h1, h2⟩
      simp only [Bool.and_eq_true, decide_eq_true_eq] at h1 h2
      apply hk.1
      rw [← h1.2]
      exact List.mem_of_elem_eq_true h2.2

/-- The key list of base-filtered progress rows of one student has no
duplicates, by the `(student, lesson)` uniqueness constraint. -/
theorem nodup_filter_map_lessonId (rows : List Progress) (s : Nat) (base : Progress → Bool)
    (hb : ∀ p, base p = true → p.studentId = s)
    (hpairs : (rows.map fun p => (p.studentId, p.lessonId)).Nodup) :
    ((rows.filter base).map (·.lessonId)).Nodup := by
  induction rows with
  | nil => simp
  | cons a rest ih =>
    rw [List.map_cons, List.nodup_cons] at hpairs
    cases hba : base a
    · rw [List.filter_cons, if_neg (by simp [hba])]
      exact ih hpairs.2
    · rw [List.filter_cons, if_pos (by simp [hba]), List.map_cons, List.nodup_cons]
      refine ⟨?_, ih hpairs.2⟩
      intro hmem
      rcases List.mem_map.mp hmem with ⟨b, hbmem, hbl⟩
      rcases List.mem_filter.mp hbmem with ⟨hbrest, hbbase⟩
      apply hpairs.1
      have hpair : (fun p => (p.studentId, p.lessonId)) b =
          (a.studentId, a.lessonId) := by
        simp only []
        rw [hb b hbbase, hb a hba, hbl]
      rw [← hpair]
      exact List.mem_map_of_mem _ hbrest

/-- The published-lesson id list of a course has no duplicates (lesson
primary keys are unique). -/
theorem publishedCourseLessons_nodup (db : ProgressDB) (c : Nat) (hwf : db.WF) :
    (publishedCourseLessons db c).Nodup := by
  unfold publishedCourseLessons
  have hsub : ((db.lessons.filter (fun l =>
      decide (l.status = PubStatus.published) &&
      db.subjects.any (fun sb => decide (sb.courseId = c) && sb.lessonIds.contains l.id))).map
        (·.id)).Sublist (db.lessons.map (·.id)) :=
    (List.filter_sublist db.lessons).map _
  exact hwf.1.sublist hsub

/-- Reordering of the completed-progress row predicate of
`calculate_course_progress`. -/
theorem progressRowPred_reorder (s c : Nat) (pub : List Nat) (p : Progress) :
    (decide (p.studentId = s) && decide (p.courseId = c) &&
      pub.contains p.lessonId && p.is_completed) =
    ((decide (p.studentId = s) && decide (p.courseId = c) && p.is_completed) &&
      pub.contains p.lessonId) := by
  cases h1 : decide (p.studentId = s) <;> cases h2 : decide (p.courseId = c) <;>
    cases h3 : pub.contains p.lessonId <;> cases h4 : p.is_completed <;> rfl

/-- Reordering of the per-lesson completion predicate of the amended C1
formula. -/
theorem progressAnyPred_reorder (s c t : Nat) (p : Progress) :
    (decide (p.studentId = s) && decide (p.courseId = c) &&
      decide (p.lessonId = t) && p.is_completed) =
    ((decide (p.studentId = s) && decide (p.courseId = c) && p.is_completed) &&
      decide (p.lessonId = t)) := by
  cases h1 : decide (p.studentId = s) <;> cases h2 : decide (p.courseId = c) <;>
    cases h3 : decide (p.lessonId = t) <;> cases h4 : p.is_completed <;> rfl

/-- C1 (amended): on a well-formed state, `calculate_course_progress`
computes exactly the claim's formula with the course condition added to
the `Progress` row: 0 with no published lesson, otherwise 100 × (lessons
of `P` having a completed `Progress` row of the student *for this
course*) / |P|, rounded to 1 decimal. -/
theorem calculate_course_progress_amended (db : ProgressDB) (s c : Nat) (hwf : db.WF) :
    calculate_course_progress db s c = courseProgressAmendedC1 db s c := by
  have hbase : ∀ p : Progress,
      (decide (p.studentId = s) && decide (p.courseId = c) && p.is_completed) = true →
        p.studentId = s := by
    intro p hp
    simp only [Bool.and_eq_true, decide_eq_true_eq] at hp
    exact hp.1.1
  have hu := nodup_filter_map_lessonId db.progresses s _ hbase hwf.2
  have hk := publishedCourseLessons_nodup db c hwf
  have e1 : db.progresses.filter (fun p =>
      decide (p.studentId = s) && decide (p.courseId = c) &&
      (publishedCourseLessons db c).contains p.lessonId && p.is_completed) =
      db.progresses.filter (fun p =>
        (decide (p.studentId = s) && decide (p.courseId = c) && p.is_completed) &&
        (publishedCourseLessons db c).contains p.lessonId) :=
    List.filter_congr (fun p _ => progressRowPred_reorder s c (publishedCourseLessons db c) p)
  have e2 := count_rows_eq_count_keys db.progresses (fun p => p.lessonId)
    (fun p => decide (p.studentId = s) && decide (p.courseId = c) && p.is_completed)
    (publishedCourseLessons db c) hk hu
  have e3 : (publishedCourseLessons db c).filter (fun t =>
      db.progresses.any (fun p =>
        (decide (p.studentId = s) && decide (p.courseId = c) && p.is_completed) &&
        decide (p.lessonId = t))) =
      (publishedCourseLessons db c).filter (fun t =>
        db.progresses.any (fun p =>
          decide (p.studentId = s) && decide (p.courseId = c) &&
          decide (p.lessonId = t) && p.is_completed)) := by
    apply List.filter_congr
    intro t _
    exact congrArg db.progresses.any
      (funext fun p => (progressAnyPred_reorder s c t p).symm)
  have hcount : (db.progresses.filter (fun p =>
      decide (p.studentId = s) && decide (p.courseId = c) &&
      (publishedCourseLessons db c).contains p.lessonId && p.is_completed)).length =
      ((publishedCourseLessons db c).filter (fun t =>
        db.progresses.any (fun p =>
          decide (p.studentId = s) && decide (p.courseId = c) &&
          decide (p.lessonId = t) && p.is_completed))).length := by
    rw [e1]
    rw [show (db.progresses.filter (fun p =>
      (decide (p.studentId = s) && decide (p.courseId = c) && p.is_completed) &&
      (publishedCourseLessons db c).contains p.lessonId)).length =
      ((publishedCourseLessons db c).filter (fun t =>
        db.progresses.any (fun p =>
          (decide (p.studentId = s) && decide (p.courseId = c) && p.is_completed) &&
          decide (p.lessonId = t)))).length from e2]
    rw [e3]
  simp only [calculate_course_progress, courseProgressAmendedC1]
  by_cases hlen : (publishedCourseLessons db c).length = 0
  · rw [if_pos hlen, if_pos hlen]
  · rw [if_neg hlen, if_neg hlen, hcount]

/-- C1 counterexample: lesson 1 is a published lesson of both course 1
and course 2; student 1's unique `Progress` row for it is completed but
carries course 2.  The claim's formula (no course condition on the
`Progress` row) yields 100.0 for course 1, while
`calculate_course_progress` — which filters `Progress` by
`course=course` — returns 0. -/
theorem calculate_course_progress_cex :
    calculate_course_progress exDbC1 1 1 = 0 ∧
    courseProgressSpecC1 exDbC1 1 1 = 100 ∧
    calculate_course_progress exDbC1 1 1 ≠ courseProgressSpecC1 exDbC1 1 1 := by
  have hpub : publishedCourseLessons exDbC1 1 = [1] := by decide
  have h0 : roundTo1 0 = 0 := by
    rw [roundTo1_eval 0 (1/2) 0 (by norm_num)
      (ratFloor_eval (1/2) 1 0 2 (by norm_num) (by norm_num) (by decide))]
    norm_num
  have h100 : roundTo1 100 = 100 := by
    rw [roundTo1_eval 100 (2001/2) 1000 (by norm_num)
      (ratFloor_eval (2001/2) 2001 1000 2 (by norm_num) (by norm_num) (by decide))]
    norm_num
  have hA : calculate_course_progress exDbC1 1 1 = 0 := by
    simp only [calculate_course_progress, hpub]
    norm_num [exDbC1, List.filter, h0]
  have hB : courseProgressSpecC1 exDbC1 1 1 = 100 := by
    simp only [courseProgressSpecC1, hpub]
    norm_num [exDbC1, List.filter, List.any, h100]
  refine ⟨hA, hB, ?_⟩
  rw [hA, hB]
  norm_num

/-- C1 witness: the amended equality applied to the counterexample
state, whose constraints are satisfied. -/
theorem calculate_course_progress_amended_witness :
    exDbC1.WF ∧ calculate_course_progress exDbC1 1 1 = courseProgressAmendedC1 exDbC1 1 1 :=
  ⟨by decide, calculate_course_progress_amended exDbC1 1 1 (by decide)⟩

/-- `Answer.objects.get_or_create` finds nothing when no answer row of
this attempt targets the question. -/
theorem answer_find_none (answers : List Answer) (attemptId qid : Nat)
    (h : ∀ a ∈ answers, a.attemptId = attemptId → a.questionId ≠ qid) :
    answers.find? (fun a =>
      decide (a.attemptId = attemptId) && decide (a.questionId = qid)) = none := by
  apply List.find?_eq_none.mpr
  intro a ha hpred
  simp only [Bool.and_eq_true, decide_eq_true_eq] at hpred
  exact h a ha hpred.1 hpred.2

/-- Updating a freshly appended row (whose primary key exceeds every
existing key) touches only that row. -/
theorem updAnswer_append_fresh (answers : List Answer) (nextId : Nat) (row : Answer)
    (f : Answer → Answer) (hfresh : ∀ a ∈ answers, a.id < nextId) (hrow : row.id = nextId) :
    updAnswer (answers ++ [row]) nextId f = answers ++ [f row] := by
  unfold updAnswer
  rw [List.map_append]
  congr 1
  · rw [List.map_congr_left (g := fun a => a), List.map_id']
    intro a ha
    exact if_neg (Nat.ne_of_lt (hfresh a ha))
  · simp [hrow]

/-- Score-accumulator shuffle used in the objective branches of the POST
loop. -/
theorem score_if_comm (sc pts s2 : ℚ) (b : Bool) :
    (if b = true then sc + pts else sc) + s2 = sc + s2 + (if b = true then pts else 0) := by
  cases b <;> simp <;> ring

/-- The POST loop of `assessment_take`, characterised: starting from a
state whose rows for this attempt answer none of the (duplicate-free)
questions and with a fresh primary-key counter, it appends exactly one
answer row per question (as described by `answerFor`), adds every
question's points to `total_points`, and adds the objectively earned
points to `score_obtained`. -/
theorem processQuestions_spec (choices : List Choice) (form : TakeForm) (attemptId : Nat) :
    ∀ (qs : List Question) (answers : List Answer) (nextId : Nat) (tp sc : ℚ),
    (∀ a ∈ answers, a.id < nextId) →
    (qs.map (·.id)).Nodup →
    (∀ a ∈ answers, a.attemptId = attemptId → a.questionId ∉ qs.map (·.id)) →
    processQuestions choices form attemptId qs answers nextId tp sc =
      (answers ++ createdAnswers choices form attemptId qs nextId,
       nextId + qs.length,
       tp + (qs.map (·.points)).sum,
       sc + (qs.map (earnedPoints choices form)).sum) := by
  intro qs
  induction qs with
  | nil =>
    intro answers nextId tp sc _ _ _
    simp [processQuestions, createdAnswers]
  | cons q rest ih =>
    intro answers nextId tp sc hfresh hnodup hnorows
    rw [List.map_cons, List.nodup_cons] at hnodup
    have hfound : answers.find? (fun a =>
        decide (a.attemptId = attemptId) && decide (a.questionId = q.id)) = none := by
      apply answer_find_none
      intro a ha hat hqid
      exact hnorows a ha hat (by rw [List.map_cons, hqid]; exact List.mem_cons_self _ _)
    have hfresh1 : ∀ (row : Answer), row.id = nextId →
        ∀ a ∈ answers ++ [row], a.id < nextId + 1 := by
      intro row hrow a ha
      rcases List.mem_append.mp ha with h | h
      · exact Nat.lt_succ_of_lt (hfresh a h)
      · rw [List.mem_singleton.mp h, hrow]
        exact Nat.lt_succ_self nextId
    have hnorows1 : ∀ (row : Answer), row.questionId = q.id →
        ∀ a ∈ answers ++ [row],
          a.attemptId = attemptId → a.questionId ∉ rest.map (·.id) := by
      intro row hrq a ha hat
      rcases List.mem_append.mp ha with h | h
      · intro hmem
        exact hnorows a h hat (by rw [List.map_cons]; exact List.mem_cons_of_mem _ hmem)
      · rw [List.mem_singleton.mp h, hrq]
        exact hnodup.1
    cases hqt : q.qtype with
    | multiple_choice =>
      cases hval : form.choiceVal q.id with
      | none =>
        simp only [processQuestions, hfound, hqt, hval]
        rw [ih _ (nextId + 1) _ _ (hfresh1 _ rfl) hnodup.2 (hnorows1 _ rfl)]
        have hae : answerFor choices form attemptId q nextId =
            defaultAnswer nextId attemptId q.id := by
          simp [answerFor, chosenChoice, hqt, hval]
        have hep : earnedPoints choices form q = 0 := by
          simp [earnedPoints, chosenChoice, hqt, hval, QType.isObjective]
        simp only [createdAnswers, hae, hep, defaultAnswer, List.map_cons, List.sum_cons,
          List.length_cons, List.append_assoc, List.singleton_append, Prod.mk.injEq]
        and_intros <;> first | rfl | omega | ring
      | some cid =>
        cases hcf : choices.find? (fun c =>
            decide (c.id = cid) && decide (c.questionId = q.id)) with
        | none =>
          simp only [processQuestions, hfound, hqt, hval, hcf]
          rw [ih _ (nextId + 1) _ _ (hfresh1 _ rfl) hnodup.2 (hnorows1 _ rfl)]
          have hae : answerFor choices form attemptId q nextId =
              defaultAnswer nextId attemptId q.id := by
            simp [answerFor, chosenChoice, hqt, hval, hcf]
          have hep : earnedPoints choices form q = 0 := by
            simp [earnedPoints, chosenChoice, hqt, hval, hcf, QType.isObjective]
          simp only [createdAnswers, hae, hep, defaultAnswer, List.map_cons, List.sum_cons,
            List.length_cons, List.append_assoc, List.singleton_append, Prod.mk.injEq]
          and_intros <;> first | rfl | omega | ring
        | some choice =>
          simp only [processQuestions, hfound, hqt, hval, hcf]
          rw [updAnswer_append_fresh answers nextId _ _ hfresh rfl]
          rw [ih _ (nextId + 1) _ _ (hfresh1 _ rfl) hnodup.2 (hnorows1 _ rfl)]
          have hae : answerFor choices form attemptId q nextId =
              { defaultAnswer nextId attemptId q.id with
                  choiceId := some choice.id, is_correct := choice.is_correct,
                  text_answer := "", file_answer := false } := by
            simp [answerFor, chosenChoice, hqt, hval, hcf, defaultAnswer]
          have hep : earnedPoints choices form q =
              if choice.is_correct then q.points else 0 := by
            simp [earnedPoints, chosenChoice, hqt, hval, hcf, QType.isObjective]
          simp only [createdAnswers, hae, hep, defaultAnswer, List.map_cons, List.sum_cons,
            List.length_cons, List.append_assoc, List.singleton_append, Prod.mk.injEq]
          and_intros
          all_goals try rfl
          all_goals try omega
          all_goals try ring
          all_goals exact score_if_comm sc q.points _ choice.is_correct
    | true_false =>
      cases hval : form.choiceVal q.id with
      | none =>
        simp only [processQuestions, hfound, hqt, hval]
        rw [ih _ (nextId + 1) _ _ (hfresh1 _ rfl) hnodup.2 (hnorows1 _ rfl)]
        have hae : answerFor choices form attemptId q nextId =
            defaultAnswer nextId attemptId q.id := by
          simp [answerFor, chosenChoice, hqt, hval]
        have hep : earnedPoints choices form q = 0 := by
          simp [earnedPoints, chosenChoice, hqt, hval, QType.isObjective]
        simp only [createdAnswers, hae, hep, defaultAnswer, List.map_cons, List.sum_cons,
          List.length_cons, List.append_assoc, List.singleton_append, Prod.mk.injEq]
        and_intros <;> first | rfl | omega | ring
      | some cid =>
        cases hcf : choices.find? (fun c =>
            decide (c.id = cid) && decide (c.questionId = q.id)) with
        | none =>
          simp only [processQuestions, hfound, hqt, hval, hcf]
          rw [ih _ (nextId + 1) _ _ (hfresh1 _ rfl) hnodup.2 (hnorows1 _ rfl)]
          have hae : answerFor choices form attemptId q nextId =
              defaultAnswer nextId attemptId q.id := by
            simp [answerFor, chosenChoice, hqt, hval, hcf]
          have hep : earnedPoints choices form q = 0 := by
            simp [earnedPoints, chosenChoice, hqt, hval, hcf, QType.isObjective]
          simp only [createdAnswers, hae, hep, defaultAnswer, List.map_cons, List.sum_cons,
            List.length_cons, List.append_assoc, List.singleton_append, Prod.mk.injEq]
          and_intros <;> first | rfl | omega | ring
        | some choice =>
          simp only [processQuestions, hfound, hqt, hval, hcf]
          rw [updAnswer_append_fresh answers nextId _ _ hfresh rfl]
          rw [ih _ (nextId + 1) _ _ (hfresh1 _ rfl) hnodup.2 (hnorows1 _ rfl)]
          have hae : answerFor choices form attemptId q nextId =
              { defaultAnswer nextId attemptId q.id with
                  choiceId := some choice.id, is_correct := choice.is_correct,
                  text_answer := "", file_answer := false } := by
            simp [answerFor, chosenChoice, hqt, hval, hcf, defaultAnswer]
          have hep : earnedPoints choices form q =
              if choice.is_correct then q.points else 0 := by
            simp [earnedPoints, chosenChoice, hqt, hval, hcf, QType.isObjective]
          simp only [createdAnswers, hae, hep, defaultAnswer, List.map_cons, List.sum_cons,
            List.length_cons, List.append_assoc, List.singleton_append, Prod.mk.injEq]
          and_intros
          all_goals try rfl
          all_goals try omega
          all_goals try ring
          all_goals exact score_if_comm sc q.points _ choice.is_correct
    | essay =>
      simp only [processQuestions, hfound, hqt]
      rw [updAnswer_append_fresh answers nextId _ _ hfresh rfl]
      rw [ih _ (nextId + 1) _ _ (hfresh1 _ rfl) hnodup.2 (hnorows1 _ rfl)]
      have hae : answerFor choices form attemptId q nextId =
          { defaultAnswer nextId attemptId q.id with
              text_answer := (form.textVal q.id).getD "", choiceId := none,
              is_correct := false } := by
        simp [answerFor, defaultAnswer, hqt]
      have hep : earnedPoints choices form q = 0 := by
        simp [earnedPoints, hqt, QType.isObjective]
      simp only [createdAnswers, hae, hep, defaultAnswer, List.map_cons, List.sum_cons,
        List.length_cons, List.append_assoc, List.singleton_append, Prod.mk.injEq]
      and_intros <;> first | rfl | omega | ring
    | file =>
      simp only [processQuestions, hfound, hqt]
      rw [updAnswer_append_fresh answers nextId _ _ hfresh rfl]
      rw [ih _ (nextId + 1) _ _ (hfresh1 _ rfl) hnodup.2 (hnorows1 _ rfl)]
      have hae : answerFor choices form attemptId q nextId =
          { defaultAnswer nextId attemptId q.id with
              file_answer := if form.fileVal q.id then true else
                (defaultAnswer nextId attemptId q.id).file_answer,
              choiceId := none, is_correct := false } := by
        cases hfv : form.fileVal q.id <;>
          simp [answerFor, defaultAnswer, hqt, hfv]
      have hep : earnedPoints choices form q = 0 := by
        simp [earnedPoints, hqt, QType.isObjective]
      simp only [createdAnswers, hae, hep, defaultAnswer, List.map_cons, List.sum_cons,
        List.length_cons, List.append_assoc, List.singleton_append, Prod.mk.injEq]
      and_intros <;> first | rfl | omega | ring

/-- `answerFor` keeps the generated primary key, the attempt and the
question of the row. -/
theorem answerFor_fields (choices : List Choice) (form : TakeForm) (attemptId : Nat)
    (q : Question) (aid : Nat) :
    (answerFor choices form attemptId q aid).id = aid ∧
    (answerFor choices form attemptId q aid).attemptId = attemptId ∧
    (answerFor choices form attemptId q aid).questionId = q.id := by
  unfold answerFor defaultAnswer
  cases q.qtype <;> try exact ⟨rfl, rfl, rfl⟩
  all_goals cases chosenChoice choices form q <;> exact ⟨rfl, rfl, rfl⟩

/-- Every row produced by the POST loop is one `answerFor` row of one of
the questions. -/
theorem createdAnswers_mem (choices : List Choice) (form : TakeForm) (attemptId : Nat) :
    ∀ (qs : List Question) (nextId : Nat) (a : Answer),
      a ∈ createdAnswers choices form attemptId qs nextId →
      ∃ q ∈ qs, ∃ i, a = answerFor choices form attemptId q i := by
  intro qs
  induction qs with
  | nil =>
    intro nextId a ha
    cases ha
  | cons q rest ih =>
    intro nextId a ha
    rcases List.mem_cons.mp ha with h | h
    · exact ⟨q, List.mem_cons_self _ _, nextId, h⟩
    · rcases ih (nextId + 1) a h with ⟨q', hq', i, hi⟩
      exact ⟨q', List.mem_cons_of_mem _ hq', i, hi⟩

/-- Every row produced by the POST loop belongs to the processed
attempt. -/
theorem createdAnswers_attempt (choices : List Choice) (form : TakeForm) (attemptId : Nat)
    (qs : List Question) (nextId : Nat) :
    ∀ a ∈ createdAnswers choices form attemptId qs nextId, a.attemptId = attemptId := by
  intro a ha
  rcases createdAnswers_mem choices form attemptId qs nextId a ha with ⟨q, _, i, rfl⟩
  exact (answerFor_fields choices form attemptId q i).2.1

/-- The POST loop creates no row for a question id outside the processed
list. -/
theorem createdAnswers_count_notmem (choices : List Choice) (form : TakeForm)
    (attemptId : Nat) :
    ∀ (qs : List Question) (nextId : Nat) (x : Nat), x ∉ qs.map (·.id) →
      (createdAnswers choices form attemptId qs nextId).filter
        (fun a => decide (a.questionId = x)) = [] := by
  intro qs
  induction qs with
  | nil =>
    intro nextId x _
    rfl
  | cons q rest ih =>
    intro nextId x hx
    rw [List.map_cons] at hx
    have hxq : x ≠ q.id := fun h => hx (by rw [h]; exact List.mem_cons_self _ _)
    have hxr : x ∉ rest.map (·.id) := fun h => hx (List.mem_cons_of_mem _ h)
    simp only [createdAnswers, List.filter_cons]
    rw [if_neg (by
      simp only [decide_eq_true_eq]
      rw [(answerFor_fields choices form attemptId q nextId).2.2]
      exact fun h => hxq h.symm)]
    exact ih (nextId + 1) x hxr

/-- The POST loop creates exactly one row per (duplicate-free) question. -/
theorem createdAnswers_count_one (choices : List Choice) (form : TakeForm) (attemptId : Nat) :
    ∀ (qs : List Question) (nextId : Nat) (q : Question), q ∈ qs → (qs.map (·.id)).Nodup →
      ((createdAnswers choices form attemptId qs nextId).filter
        (fun a => decide (a.questionId = q.id))).length = 1 := by
  intro qs
  induction qs with
  | nil =>
    intro _ q hq
    cases hq
  | cons q0 rest ih =>
    intro nextId q hq hnodup
    rw [List.map_cons, List.nodup_cons] at hnodup
    simp only [createdAnswers, List.filter_cons]
    rcases List.mem_cons.mp hq with rfl | hqr
    · rw [if_pos (by
        simp only [decide_eq_true_eq]
        exact (answerFor_fields choices form attemptId q nextId).2.2)]
      rw [List.length_cons, createdAnswers_count_notmem choices form attemptId rest
        (nextId + 1) q.id hnodup.1]
      rfl
    · have hne : q0.id ≠ q.id := by
        intro h
        exact hnodup.1 (by rw [h]; exact List.mem_map_of_mem _ hqr)
      rw [if_neg (by
        simp only [decide_eq_true_eq]
        rw [(answerFor_fields choices form attemptId q0 nextId).2.2]
        exact hne)]
      exact ih (nextId + 1) q hqr hnodup.2

/-- The effect of a POST of `assessment_take` on an in-progress attempt
within its time limit: one answer row per question is upserted (here:
created, the attempt having no rows yet) and the attempt is stored
submitted with `finished_at = now` and
`score = round(score_obtained, 2) if total_points > 0 else 0`. -/
theorem assessment_take_post (db : AssessDB) (asm : Assessment) (att : Attempt)
    (studentId : Nat) (form : TakeForm) (now : ℤ) (nextAnswerId : Nat)
    (hfind : db.attempts.find? (fun a =>
      decide (a.id = att.id) && decide (a.assessmentId = asm.id) &&
      decide (a.studentId = studentId)) = some att)
    (hsub : att.is_submitted = false)
    (htime : ¬ timeExceeded asm att now)
    (hfresh : ∀ a ∈ db.answers, a.id < nextAnswerId)
    (hnodupq : ((questionsOf db asm).map (·.id)).Nodup)
    (hnorows : ∀ a ∈ db.answers, a.attemptId = att.id →
      a.questionId ∉ (questionsOf db asm).map (·.id)) :
    assessment_take db asm att.id studentId true form now nextAnswerId =
      (updAttempt
        (withAnswers db
          (db.answers ++ createdAnswers db.choices form att.id (questionsOf db asm) nextAnswerId))
        att.id (submitScore now (takeScoreVal db asm form)),
       TakeOutcome.redirectResult) := by
  simp only [assessment_take, hfind, hsub, Bool.false_eq_true, if_false, if_neg htime,
    if_pos rfl]
  rw [processQuestions_spec db.choices form att.id (questionsOf db asm) db.answers
    nextAnswerId 0 0 hfresh hnodupq hnorows]
  simp only [zero_add, withAnswers, takeScoreVal, if_true]
  rfl

/-- C2 (amended): a POST of an in-progress attempt within its time
window stores exactly one updated attempt row, whose score is
`round(sum of points of objective questions whose chosen choice is
correct, 2)` *when the total of all question point values is positive*,
and literal 0 otherwise (`score = round(score_obtained, 2) if
total_points > 0 else 0`); `is_submitted` and `finished_at` are set.
In particular (second conjunct), for the spec's example — two 5-point
multiple-choice questions, one answered correctly and one incorrectly —
the stored score is 5.00. -/
theorem assessment_take_score_spec :
    (∀ (db : AssessDB) (asm : Assessment) (att : Attempt) (studentId : Nat)
      (form : TakeForm) (now : ℤ) (nextAnswerId : Nat),
      db.attempts.find? (fun a =>
        decide (a.id = att.id) && decide (a.assessmentId = asm.id) &&
        decide (a.studentId = studentId)) = some att →
      att.is_submitted = false →
      ¬ timeExceeded asm att now →
      (∀ a ∈ db.answers, a.id < nextAnswerId) →
      ((questionsOf db asm).map (·.id)).Nodup →
      (∀ a ∈ db.answers, a.attemptId = att.id →
        a.questionId ∉ (questionsOf db asm).map (·.id)) →
      (db.attempts.map (·.id)).Nodup →
      submitScore now (takeScoreVal db asm form) att ∈
        (assessment_take db asm att.id studentId true form now nextAnswerId).1.attempts ∧
      ∀ a ∈ (assessment_take db asm att.id studentId true form now nextAnswerId).1.attempts,
        a.id = att.id → a = submitScore now (takeScoreVal db asm form) att) ∧
    ((assessment_take exDbC2w exAsmC2 1 1 true exFormC2w 0 10).1.attempts.map (·.score) =
      [some 5]) := by
  constructor
  · intro db asm att studentId form now nextAnswerId hfind hsub htime hfresh hnodupq
      hnorows hids
    rw [assessment_take_post db asm att studentId form now nextAnswerId hfind hsub htime
      hfresh hnodupq hnorows]
    have h := updById_mem_unique (fun a : Attempt => a.id) db.attempts att
      (submitScore now (takeScoreVal db asm form)) hids
      (List.mem_of_find?_eq_some hfind) rfl
    exact h
  · have hq : questionsOf exDbC2w exAsmC2 =
        [⟨1, 1, QType.multiple_choice, 1, 5⟩, ⟨2, 1, QType.multiple_choice, 2, 5⟩] := by
      rfl
    have hatt : exDbC2w.attempts.find? (fun a =>
        decide (a.id = 1) && decide (a.assessmentId = exAsmC2.id) &&
        decide (a.studentId = 1)) = some ⟨1, 1, 1, 1, false, none, 0, none⟩ := rfl
    have hts : takeScoreVal exDbC2w exAsmC2 exFormC2w = 5 := by
      have h1 : ((questionsOf exDbC2w exAsmC2).map (·.points)).sum = 10 := by
        rw [hq]
        norm_num
      have h2 : ((questionsOf exDbC2w exAsmC2).map
          (earnedPoints exDbC2w.choices exFormC2w)).sum = 5 := by
        rw [hq]
        have he1 : earnedPoints exDbC2w.choices exFormC2w ⟨1, 1, QType.multiple_choice, 1, 5⟩ = 5 := by
          simp [earnedPoints, chosenChoice, exFormC2w, exDbC2w, QType.isObjective]
        have he2 : earnedPoints exDbC2w.choices exFormC2w ⟨2, 1, QType.multiple_choice, 2, 5⟩ = 0 := by
          simp [earnedPoints, chosenChoice, exFormC2w, exDbC2w, QType.isObjective]
        rw [List.map_cons, List.map_cons, List.map_nil, List.sum_cons, List.sum_cons,
          List.sum_nil, he1, he2]
        norm_num
      rw [takeScoreVal, h1, h2]
      rw [if_pos (by norm_num)]
      rw [roundTo2_eval 5 (1001/2) 500 (by norm_num)
        (ratFloor_eval (1001/2) 1001 500 2 (by norm_num) (by norm_num) (by decide))]
      norm_num
    have hrw : assessment_take exDbC2w exAsmC2 1 1 true exFormC2w 0 10 =
        (updAttempt
          (withAnswers exDbC2w (exDbC2w.answers ++
            createdAnswers exDbC2w.choices exFormC2w 1 (questionsOf exDbC2w exAsmC2) 10))
          1 (submitScore 0 (takeScoreVal exDbC2w exAsmC2 exFormC2w)),
         TakeOutcome.redirectResult) :=
      assessment_take_post exDbC2w exAsmC2 ⟨1, 1, 1, 1, false, none, 0, none⟩ 1
        exFormC2w 0 10 hatt rfl (by simp [timeExceeded, exAsmC2]) (by simp [exDbC2w])
        (by rw [hq]; decide) (by simp [exDbC2w])
    rw [hrw, hts]
    rfl

/-- C2 counterexample: assessment 1 of `exDbC2` has a 5-point
multiple-choice question answered correctly and a (-5)-point essay
question, so `total_points = 0` and the handler stores score 0 — but the
claim's formula (round of the objective-correct point sum, with no
`total_points > 0` guard) gives 5. -/
theorem assessment_take_score_cex :
    ((assessment_take exDbC2 exAsmC2 1 1 true exFormC2 0 10).1.attempts.map (·.score) =
      [some 0]) ∧
    roundTo2 (((questionsOf exDbC2 exAsmC2).map
      (earnedPoints exDbC2.choices exFormC2)).sum) = 5 ∧
    (some (0 : ℚ) : Option ℚ) ≠ some 5 := by
  have hq : questionsOf exDbC2 exAsmC2 =
      [⟨1, 1, QType.multiple_choice, 1, 5⟩, ⟨2, 1, QType.essay, 2, -5⟩] := rfl
  have h2 : ((questionsOf exDbC2 exAsmC2).map
      (earnedPoints exDbC2.choices exFormC2)).sum = 5 := by
    rw [hq]
    have he1 : earnedPoints exDbC2.choices exFormC2 ⟨1, 1, QType.multiple_choice, 1, 5⟩ = 5 := by
      simp [earnedPoints, chosenChoice, exFormC2, exDbC2, QType.isObjective]
    have he2 : earnedPoints exDbC2.choices exFormC2 ⟨2, 1, QType.essay, 2, -5⟩ = 0 := by
      simp [earnedPoints, chosenChoice, exFormC2, exDbC2, QType.isObjective]
    rw [List.map_cons, List.map_cons, List.map_nil, List.sum_cons, List.sum_cons,
      List.sum_nil, he1, he2]
    norm_num
  have hts : takeScoreVal exDbC2 exAsmC2 exFormC2 = 0 := by
    have h1 : ((questionsOf exDbC2 exAsmC2).map (·.points)).sum = 0 := by
      rw [hq]
      norm_num
    rw [takeScoreVal, h1]
    norm_num
  refine ⟨?_, ?_, by simp⟩
  · have hrw : assessment_take exDbC2 exAsmC2 1 1 true exFormC2 0 10 =
        (updAttempt
          (withAnswers exDbC2 (exDbC2.answers ++
            createdAnswers exDbC2.choices exFormC2 1 (questionsOf exDbC2 exAsmC2) 10))
          1 (submitScore 0 (takeScoreVal exDbC2 exAsmC2 exFormC2)),
         TakeOutcome.redirectResult) :=
      assessment_take_post exDbC2 exAsmC2 ⟨1, 1, 1, 1, false, none, 0, none⟩ 1
        exFormC2 0 10 rfl rfl (by simp [timeExceeded, exAsmC2]) (by simp [exDbC2])
        (by decide) (by simp [exDbC2])
    rw [hrw, hts]
    rfl
  · rw [h2]
    rw [roundTo2_eval 5 (1001/2) 500 (by norm_num)
      (ratFloor_eval (1001/2) 1001 500 2 (by norm_num) (by norm_num) (by decide))]
    norm_num

/-- C2 witness: the amended statement applied to the spec's two-question
example, all hypotheses discharged concretely. -/
theorem assessment_take_score_spec_witness :
    exDbC2w.attempts.find? (fun a =>
      decide (a.id = 1) && decide (a.assessmentId = exAsmC2.id) &&
      decide (a.studentId = 1)) = some ⟨1, 1, 1, 1, false, none, 0, none⟩ ∧
    submitScore 0 (takeScoreVal exDbC2w exAsmC2 exFormC2w) ⟨1, 1, 1, 1, false, none, 0, none⟩ ∈
      (assessment_take exDbC2w exAsmC2 1 1 true exFormC2w 0 10).1.attempts :=
  ⟨rfl,
    (assessment_take_score_spec.1 exDbC2w exAsmC2 ⟨1, 1, 1, 1, false, none, 0, none⟩ 1
      exFormC2w 0 10 rfl rfl (by simp [timeExceeded, exAsmC2]) (by simp [exDbC2w])
      (by decide) (by simp [exDbC2w]) (by decide)).1⟩

/-- C10 (confirmed): after a POST submission of an in-progress attempt
(which, being in progress, has no answer rows yet), there is exactly one
`Answer` row per (attempt, question) pair for every question of the
assessment; a question left blank or answered with a choice id matching
no choice of the question gets a row with `choice` null and `is_correct`
false; and for every question — answered or not — the count of all
`Answer` rows referencing it (the `total_ans` denominator used by
`assessment_stats`) grows by exactly one. -/
theorem assessment_take_answer_rows (db : AssessDB) (asm : Assessment) (att : Attempt)
    (studentId : Nat) (form : TakeForm) (now : ℤ) (nextAnswerId : Nat)
    (hfind : db.attempts.find? (fun a =>
      decide (a.id = att.id) && decide (a.assessmentId = asm.id) &&
      decide (a.studentId = studentId)) = some att)
    (hsub : att.is_submitted = false)
    (htime : ¬ timeExceeded asm att now)
    (hfresh : ∀ a ∈ db.answers, a.id < nextAnswerId)
    (hnodupq : ((questionsOf db asm).map (·.id)).Nodup)
    (hempty : ∀ a ∈ db.answers, a.attemptId ≠ att.id) :
    (∀ q ∈ questionsOf db asm,
      countAnswersFor
        (assessment_take db asm att.id studentId true form now nextAnswerId).1.answers
        att.id q.id = 1) ∧
    (∀ q ∈ questionsOf db asm, q.qtype.isObjective = true →
      chosenChoice db.choices form q = none →
      ∀ a ∈ (assessment_take db asm att.id studentId true form now nextAnswerId).1.answers,
        a.attemptId = att.id → a.questionId = q.id →
        a.choiceId = none ∧ a.is_correct = false) ∧
    (∀ q ∈ questionsOf db asm,
      ((assessment_take db asm att.id studentId true form now nextAnswerId).1.answers.filter
        (fun a => decide (a.questionId = q.id))).length =
      (db.answers.filter (fun a => decide (a.questionId = q.id))).length + 1) := by
  rw [assessment_take_post db asm att studentId form now nextAnswerId hfind hsub htime
    hfresh hnodupq (fun a ha hat => absurd hat (hempty a ha))]
  have hansw : (updAttempt
      (withAnswers db (db.answers ++
        createdAnswers db.choices form att.id (questionsOf db asm) nextAnswerId))
      att.id (submitScore now (takeScoreVal db asm form))).answers =
      db.answers ++ createdAnswers db.choices form att.id (questionsOf db asm) nextAnswerId :=
    rfl
  rw [hansw]
  refine ⟨?_, ?_, ?_⟩
  · intro q hq
    rw [countAnswersFor, List.filter_append]
    have h1 : db.answers.filter (fun a =>
        decide (a.attemptId = att.id) && decide (a.questionId = q.id)) = [] := by
      apply List.filter_eq_nil_iff.mpr
      intro a ha hpred
      simp only [Bool.and_eq_true, decide_eq_true_eq] at hpred
      exact hempty a ha hpred.1
    have h2 : (createdAnswers db.choices form att.id (questionsOf db asm)
        nextAnswerId).filter (fun a =>
          decide (a.attemptId = att.id) && decide (a.questionId = q.id)) =
        (createdAnswers db.choices form att.id (questionsOf db asm) nextAnswerId).filter
          (fun a => decide (a.questionId = q.id)) := by
      apply List.filter_congr
      intro a ha
      rw [createdAnswers_attempt db.choices form att.id (questionsOf db asm)
        nextAnswerId a ha]
      simp
    rw [h1, h2, List.nil_append]
    exact createdAnswers_count_one db.choices form att.id (questionsOf db asm)
      nextAnswerId q hq hnodupq
  · intro q hq hobj hcc a ha hat hqid
    rcases List.mem_append.mp ha with hold | hnew
    · exact absurd hat (hempty a hold)
    · rcases createdAnswers_mem db.choices form att.id (questionsOf db asm)
        nextAnswerId a hnew with ⟨q', hq', i, rfl⟩
      have hq'id : q'.id = q.id := by
        rw [← (answerFor_fields db.choices form att.id q' i).2.2]
        exact hqid
      have hqq : q' = q := List.inj_on_of_nodup_map hnodupq hq' hq hq'id
      subst hqq
      cases hqt : q'.qtype with
      | multiple_choice =>
        simp [answerFor, hqt, hcc, defaultAnswer]
      | true_false =>
        simp [answerFor, hqt, hcc, defaultAnswer]
      | essay =>
        rw [hqt] at hobj
        cases hobj
      | file =>
        rw [hqt] at hobj
        cases hobj
  · intro q hq
    rw [List.filter_append, List.length_append]
    rw [createdAnswers_count_one db.choices form att.id (questionsOf db asm)
      nextAnswerId q hq hnodupq]

/-- C10 witness: in the example state — question 1 answered with a valid
choice, question 2 left blank, question 3 an essay — the POST leaves
exactly one row per question, the blank question's row has null choice
and `is_correct = False`, and every per-question row count (the stats
denominator) grows by one. -/
theorem assessment_take_answer_rows_witness :
    ((⟨2, 1, QType.multiple_choice, 2, 5⟩ : Question) ∈ questionsOf exDbC10 exAsmC2 ∧
      chosenChoice exDbC10.choices exFormC10 ⟨2, 1, QType.multiple_choice, 2, 5⟩ = none) ∧
    countAnswersFor (assessment_take exDbC10 exAsmC2 1 1 true exFormC10 0 10).1.answers
      1 2 = 1 ∧
    (∀ a ∈ (assessment_take exDbC10 exAsmC2 1 1 true exFormC10 0 10).1.answers,
      a.attemptId = 1 → a.questionId = 2 →
      a.choiceId = none ∧ a.is_correct = false) ∧
    ((assessment_take exDbC10 exAsmC2 1 1 true exFormC10 0 10).1.answers.filter
      (fun a => decide (a.questionId = 2))).length =
      (exDbC10.answers.filter (fun a => decide (a.questionId = 2))).length + 1 := by
  have h := assessment_take_answer_rows exDbC10 exAsmC2 ⟨1, 1, 1, 1, false, none, 0, none⟩
    1 exFormC10 0 10 rfl rfl (by simp [timeExceeded, exAsmC2]) (by simp [exDbC10])
    (by decide) (by decide)
  exact ⟨⟨by decide, rfl⟩,
    h.1 ⟨2, 1, QType.multiple_choice, 2, 5⟩ (by decide),
    h.2.1 ⟨2, 1, QType.multiple_choice, 2, 5⟩ (by decide) rfl rfl,
    h.2.2 ⟨2, 1, QType.multiple_choice, 2, 5⟩ (by decide)⟩

/-- The grading loop of `grade_attempt`, characterised: when no essay or
file answer has a non-numeric grade value, it succeeds with the sum of
the objective points already marked correct plus the entered grade
values. -/
theorem gradeLoop_spec (questions : List Question) (grades : Nat → RawNum) :
    ∀ (answers : List Answer) (acc : ℚ),
    (∀ a ∈ answers, (questionOfAnswer questions a).qtype.isObjective = false →
      grades a.id ≠ RawNum.malformed) →
    gradeLoop questions grades answers acc =
      Except.ok (acc + objectiveCorrectPoints questions answers +
        essayGradeSum questions grades answers) := by
  intro answers
  induction answers with
  | nil =>
    intro acc _
    simp [gradeLoop, objectiveCorrectPoints, essayGradeSum]
  | cons a rest ih =>
    intro acc hmal
    have hmal' : ∀ b ∈ rest, (questionOfAnswer questions b).qtype.isObjective = false →
        grades b.id ≠ RawNum.malformed :=
      fun b hb => hmal b (List.mem_cons_of_mem a hb)
    cases hqt : (questionOfAnswer questions a).qtype with
    | multiple_choice =>
      simp only [gradeLoop, hqt]
      rw [ih _ hmal']
      rw [Except.ok.injEq]
      cases hc : a.is_correct <;>
        simp [objectiveCorrectPoints, essayGradeSum, List.filter_cons, hqt,
          QType.isObjective, hc] <;>
        ring
    | true_false =>
      simp only [gradeLoop, hqt]
      rw [ih _ hmal']
      rw [Except.ok.injEq]
      cases hc : a.is_correct <;>
        simp [objectiveCorrectPoints, essayGradeSum, List.filter_cons, hqt,
          QType.isObjective, hc] <;>
        ring
    | essay =>
      have hobj : (questionOfAnswer questions a).qtype.isObjective = false := by
        rw [hqt]
        rfl
      simp only [gradeLoop, hqt]
      cases hg : grades a.id with
      | malformed => exact absurd hg (hmal a (List.mem_cons_self a rest) hobj)
      | absent =>
        rw [ih _ hmal']
        rw [Except.ok.injEq]
        simp [objectiveCorrectPoints, essayGradeSum, List.filter_cons, hqt,
          QType.isObjective, hg]
        try ring
      | num v =>
        show gradeLoop questions grades rest (acc + v) = _
        rw [ih _ hmal']
        rw [Except.ok.injEq]
        simp [objectiveCorrectPoints, essayGradeSum, List.filter_cons, hqt,
          QType.isObjective, hg]
        try ring
    | file =>
      have hobj : (questionOfAnswer questions a).qtype.isObjective = false := by
        rw [hqt]
        rfl
      simp only [gradeLoop, hqt]
      cases hg : grades a.id with
      | malformed => exact absurd hg (hmal a (List.mem_cons_self a rest) hobj)
      | absent =>
        rw [ih _ hmal']
        rw [Except.ok.injEq]
        simp [objectiveCorrectPoints, essayGradeSum, List.filter_cons, hqt,
          QType.isObjective, hg]
        try ring
      | num v =>
        show gradeLoop questions grades rest (acc + v) = _
        rw [ih _ hmal']
        rw [Except.ok.injEq]
        simp [objectiveCorrectPoints, essayGradeSum, List.filter_cons, hqt,
          QType.isObjective, hg]
        try ring

/-- The effect of a POST of `grade_attempt` with well-formed grade
values: the attempt row is overwritten with
`score = round(objective-correct points + entered grades, 2)` and
`is_submitted = True`. -/
theorem grade_attempt_post (db : AssessDB) (assessmentId : Nat) (att : Attempt)
    ( role : Role) (grades : Nat → RawNum)
    (hfind : db.attempts.find? (fun a =>
      decide (a.id = att.id) && decide (a.assessmentId = assessmentId)) = some att)
    (hmal : ∀ a ∈ db.answers.filter (fun a => decide (a.attemptId = att.id)),
      (questionOfAnswer db.questions a).qtype.isObjective = false →
      grades a.id ≠ RawNum.malformed) :
    grade_attempt db assessmentId att.id role true grades =
      Except.ok
        (updAttempt db att.id
          (gradeUpd (objectiveCorrectPoints db.questions
              (db.answers.filter (fun a => decide (a.attemptId = att.id))) +
            essayGradeSum db.questions grades
              (db.answers.filter (fun a => decide (a.attemptId = att.id))))),
         GradeOutcome.redirectSubmissions) := by
  simp only [grade_attempt, hfind, if_pos rfl]
  rw [gradeLoop_spec db.questions grades
    (db.answers.filter (fun a => decide (a.attemptId = att.id))) 0 hmal]
  simp only [zero_add]
  rfl

/-- C4 (confirmed): re-grading a submitted attempt stores
`score = round((objective points already marked correct) + (numeric
per-answer grade values entered for essay/file answers), 2)` and sets
`is_submitted = True` on exactly one attempt row.  Second conjunct: on
the example state — a correct 5-point objective answer plus an essay
answer graded `grade_2 = 3.5` — the stored score is 8.5, i.e. the 3.5
is added to the recomputed objective sum, and `is_submitted` stays
True. -/
theorem grade_attempt_score_update :
    (∀ (db : AssessDB) (assessmentId : Nat) (att : Attempt) (r : Role)
      (grades : Nat → RawNum),
      db.attempts.find? (fun a =>
        decide (a.id = att.id) && decide (a.assessmentId = assessmentId)) = some att →
      (∀ a ∈ db.answers.filter (fun a => decide (a.attemptId = att.id)),
        (questionOfAnswer db.questions a).qtype.isObjective = false →
        grades a.id ≠ RawNum.malformed) →
      (db.attempts.map (·.id)).Nodup →
      ∃ db' : AssessDB,
        grade_attempt db assessmentId att.id r true grades =
          Except.ok (db', GradeOutcome.redirectSubmissions) ∧
        gradeUpd (objectiveCorrectPoints db.questions
            (db.answers.filter (fun a => decide (a.attemptId = att.id))) +
          essayGradeSum db.questions grades
            (db.answers.filter (fun a => decide (a.attemptId = att.id)))) att ∈
          db'.attempts ∧
        ∀ a ∈ db'.attempts, a.id = att.id →
          a = gradeUpd (objectiveCorrectPoints db.questions
              (db.answers.filter (fun a => decide (a.attemptId = att.id))) +
            essayGradeSum db.questions grades
              (db.answers.filter (fun a => decide (a.attemptId = att.id)))) att) ∧
    ((grade_attempt exDbC4 1 1 Role.teacher true exGradesC4).map
      (fun r => r.1.attempts.map (fun a => (a.score, a.is_submitted))) =
      Except.ok [(some (17/2), true)]) := by
  constructor
  · intro db assessmentId att r grades hfind hmal hids
    refine ⟨_, grade_attempt_post db assessmentId att r grades hfind hmal, ?_⟩
    exact updById_mem_unique (fun a : Attempt => a.id) db.attempts att _ hids
      (List.mem_of_find?_eq_some hfind) rfl
  · have hobj : objectiveCorrectPoints exDbC4.questions
        (exDbC4.answers.filter (fun a => decide (a.attemptId = 1))) = 5 := by
      simp [objectiveCorrectPoints, exDbC4, questionOfAnswer, QType.isObjective,
        List.filter, List.find?]
    have hgr : essayGradeSum exDbC4.questions exGradesC4
        (exDbC4.answers.filter (fun a => decide (a.attemptId = 1))) = 7/2 := by
      simp [essayGradeSum, exDbC4, exGradesC4, questionOfAnswer, QType.isObjective,
        List.filter, List.find?]
    have hrw : grade_attempt exDbC4 1 1 Role.teacher true exGradesC4 =
        Except.ok
          (updAttempt exDbC4 1
            (gradeUpd (objectiveCorrectPoints exDbC4.questions
                (exDbC4.answers.filter (fun a => decide (a.attemptId = 1))) +
              essayGradeSum exDbC4.questions exGradesC4
                (exDbC4.answers.filter (fun a => decide (a.attemptId = 1))))),
           GradeOutcome.redirectSubmissions) :=
      grade_attempt_post exDbC4 1 ⟨1, 1, 1, 1, true, some 5, 0, some 10⟩ Role.teacher
        exGradesC4 rfl
        (by
          intro a _ _ hg
          by_cases h2 : a.id = 2 <;> simp [exGradesC4, h2] at hg)
    rw [hrw, hobj, hgr]
    have hround : roundTo2 ((5 : ℚ) + 7/2) = 17/2 := by
      rw [roundTo2_eval ((5 : ℚ) + 7/2) (1701/2) 850 (by norm_num)
        (ratFloor_eval (1701/2) 1701 850 2 (by norm_num) (by norm_num) (by decide))]
      norm_num
    simp only [Except.map, updAttempt, gradeUpd, hround, exDbC4]
    rfl

/-- C4 witness: the grading theorem applied to the example state (one
correct 5-point objective answer, one essay answer graded 3.5). -/
theorem grade_attempt_score_update_witness :
    exDbC4.attempts.find? (fun a =>
      decide (a.id = 1) && decide (a.assessmentId = 1)) =
        some ⟨1, 1, 1, 1, true, some 5, 0, some 10⟩ ∧
    ∃ db' : AssessDB,
      grade_attempt exDbC4 1 1 Role.teacher true exGradesC4 =
        Except.ok (db', GradeOutcome.redirectSubmissions) ∧
      gradeUpd (objectiveCorrectPoints exDbC4.questions
          (exDbC4.answers.filter (fun a => decide (a.attemptId = 1))) +
        essayGradeSum exDbC4.questions exGradesC4
          (exDbC4.answers.filter (fun a => decide (a.attemptId = 1))))
        ⟨1, 1, 1, 1, true, some 5, 0, some 10⟩ ∈ db'.attempts :=
  ⟨rfl,
    match grade_attempt_score_update.1 exDbC4 1 ⟨1, 1, 1, 1, true, some 5, 0, some 10⟩
      Role.teacher exGradesC4 rfl (by decide) (by decide) with
    | ⟨db', h1, h2, _⟩ => ⟨db', h1, h2⟩⟩

/-- C9 (confirmed): `grade_attempt` performs no role check.  First
conjunct: its result is literally independent of the requester's role
(the handler receives `school_user` but never inspects it, and the view
carries no `teacher_required` decorator).  Second conjunct: any school
member with role `student` POSTing the route recomputes and overwrites
the attempt's score and sets `is_submitted = True`, exactly as a teacher
would.  (The handler also never compares the requester with the
attempt's owner, so this includes the student who owns the attempt.) -/
theorem grade_attempt_role_free :
    (∀ (db : AssessDB) (assessmentId attemptId : Nat) (isPost : Bool)
      (grades : Nat → RawNum) (r r' : Role),
      grade_attempt db assessmentId attemptId r isPost grades =
        grade_attempt db assessmentId attemptId r' isPost grades) ∧
    (∀ (db : AssessDB) (assessmentId : Nat) (att : Attempt) (grades : Nat → RawNum),
      db.attempts.find? (fun a =>
        decide (a.id = att.id) && decide (a.assessmentId = assessmentId)) = some att →
      (∀ a ∈ db.answers.filter (fun a => decide (a.attemptId = att.id)),
        (questionOfAnswer db.questions a).qtype.isObjective = false →
        grades a.id ≠ RawNum.malformed) →
      grade_attempt_route db (some Role.student) assessmentId att.id true grades =
        Except.ok
          (updAttempt db att.id
            (gradeUpd (objectiveCorrectPoints db.questions
                (db.answers.filter (fun a => decide (a.attemptId = att.id))) +
              essayGradeSum db.questions grades
                (db.answers.filter (fun a => decide (a.attemptId = att.id))))),
           GradeRouteOutcome.handled GradeOutcome.redirectSubmissions)) := by
  constructor
  · intro db assessmentId attemptId isPost grades r r'
    rfl
  · intro db assessmentId att grades hfind hmal
    simp only [grade_attempt_route]
    rw [grade_attempt_post db assessmentId att Role.student grades hfind hmal]

/-- C9 witness: a member with role `student` (in fact the owner, student
1, of attempt 1) grading through the route overwrites the score. -/
theorem grade_attempt_role_free_witness :
    exDbC4.attempts.find? (fun a =>
      decide (a.id = 1) && decide (a.assessmentId = 1)) =
        some ⟨1, 1, 1, 1, true, some 5, 0, some 10⟩ ∧
    grade_attempt_route exDbC4 (some Role.student) 1 1 true exGradesC4 =
      Except.ok
        (updAttempt exDbC4 1
          (gradeUpd (objectiveCorrectPoints exDbC4.questions
              (exDbC4.answers.filter (fun a => decide (a.attemptId = 1))) +
            essayGradeSum exDbC4.questions exGradesC4
              (exDbC4.answers.filter (fun a => decide (a.attemptId = 1))))),
         GradeRouteOutcome.handled GradeOutcome.redirectSubmissions) :=
  ⟨rfl,
    grade_attempt_role_free.2 exDbC4 1 ⟨1, 1, 1, 1, true, some 5, 0, some 10⟩
      exGradesC4 rfl (by decide)⟩

/-- With no null score among them, the non-null-score projection of the
submitted attempts is just the score projection. -/
theorem filterMap_score_all_some (l : List Attempt) (h : ∀ a ∈ l, a.score ≠ none) :
    l.filterMap (·.score) = l.map (fun a => a.score.getD 0) := by
  induction l with
  | nil => rfl
  | cons a t ih =>
    have ha := h a (List.mem_cons_self a t)
    cases hs : a.score with
    | none => exact absurd hs ha
    | some v =>
      rw [List.filterMap_cons, List.map_cons, hs]
      simp only [Option.getD_some]
      rw [ih (fun b hb => h b (List.mem_cons_of_mem _ hb))]

/-- C5 (amended): provided every submitted attempt of the assessment has
a (non-null) score, `assessment_stats` reports `round(average score, 2)`
(0 with no submitted attempt); for every question of the assessment the
list holds the pair `(question, round(100 × correct / total, 2))` — 0
when the question has no answers; the reported list is sorted ascending
in the *rounded* rate; and it has one entry per question.  Second
conjunct: with one question answered by 4 students, 3 correctly, the
reported rate is 75.0. -/
theorem assessment_stats_spec :
    (∀ (db : AssessDB) (asm : Assessment),
      (∀ a ∈ db.attempts, a.assessmentId = asm.id → a.is_submitted = true → a.score ≠ none) →
      ((assessment_stats db asm).avg_score =
        roundTo2 (if (db.attempts.filter (fun a =>
            decide (a.assessmentId = asm.id) && a.is_submitted)).length = 0 then 0
          else ((db.attempts.filter (fun a =>
              decide (a.assessmentId = asm.id) && a.is_submitted)).map
                (fun a => a.score.getD 0)).sum /
            ((db.attempts.filter (fun a =>
              decide (a.assessmentId = asm.id) && a.is_submitted)).length : ℚ))) ∧
      (∀ q ∈ db.questions, q.assessmentId = asm.id →
        (q.id, roundTo2 (if (db.answers.filter (fun a =>
            decide (a.questionId = q.id))).length ≠ 0 then
          100 * ((db.answers.filter (fun a =>
              decide (a.questionId = q.id) && a.is_correct)).length : ℚ) /
            ((db.answers.filter (fun a => decide (a.questionId = q.id))).length : ℚ)
          else 0)) ∈ (assessment_stats db asm).difficult) ∧
      ((assessment_stats db asm).difficult.map (·.2)).Sorted (· ≤ ·) ∧
      (assessment_stats db asm).difficult.length =
        (db.questions.filter (fun q => decide (q.assessmentId = asm.id))).length) ∧
    (assessment_stats exDbC5w exAsmC5).difficult = [(1, 75)] := by
  constructor
  · intro db asm hscores
    have hfm : (db.attempts.filter (fun a =>
        decide (a.assessmentId = asm.id) && a.is_submitted)).filterMap (·.score) =
        (db.attempts.filter (fun a =>
          decide (a.assessmentId = asm.id) && a.is_submitted)).map
            (fun a => a.score.getD 0) := by
      apply filterMap_score_all_some
      intro a ha
      rcases List.mem_filter.mp ha with ⟨hmem, hpred⟩
      simp only [Bool.and_eq_true, decide_eq_true_eq] at hpred
      exact hscores a hmem hpred.1 hpred.2
    refine ⟨?_, ?_, ?_, ?_⟩
    · simp only [assessment_stats, hfm, List.length_map]
    · intro q hq hqa
      have hmem : q ∈ db.questions.filter (fun q => decide (q.assessmentId = asm.id)) :=
        List.mem_filter.mpr ⟨hq, by simp [hqa]⟩
      have hval : (fun q : Question =>
          (q.id, roundTo2 (if (db.answers.filter (fun a =>
              decide (a.questionId = q.id))).length ≠ 0 then
            ((db.answers.filter (fun a =>
                decide (a.questionId = q.id) && a.is_correct)).length : ℚ) /
              ((db.answers.filter (fun a => decide (a.questionId = q.id))).length : ℚ) * 100
            else 0))) q =
          (q.id, roundTo2 (if (db.answers.filter (fun a =>
              decide (a.questionId = q.id))).length ≠ 0 then
            100 * ((db.answers.filter (fun a =>
                decide (a.questionId = q.id) && a.is_correct)).length : ℚ) /
              ((db.answers.filter (fun a => decide (a.questionId = q.id))).length : ℚ)
            else 0)) := by
        have harg : (if (db.answers.filter (fun a =>
              decide (a.questionId = q.id))).length ≠ 0 then
            ((db.answers.filter (fun a =>
                decide (a.questionId = q.id) && a.is_correct)).length : ℚ) /
              ((db.answers.filter (fun a => decide (a.questionId = q.id))).length : ℚ) * 100
            else 0) =
            (if (db.answers.filter (fun a =>
                decide (a.questionId = q.id))).length ≠ 0 then
              100 * ((db.answers.filter (fun a =>
                  decide (a.questionId = q.id) && a.is_correct)).length : ℚ) /
                ((db.answers.filter (fun a => decide (a.questionId = q.id))).length : ℚ)
              else 0) := by
          split
          · ring
          · rfl
        simp only [harg]
      rw [← hval]
      apply (List.perm_insertionSort rateLE _).mem_iff.mpr
      exact List.mem_map_of_mem _ hmem
    · have hs := List.sorted_insertionSort rateLE
        ((db.questions.filter (fun q => decide (q.assessmentId = asm.id))).map (fun q =>
          (q.id, roundTo2 (if (db.answers.filter (fun a =>
              decide (a.questionId = q.id))).length ≠ 0 then
            ((db.answers.filter (fun a =>
                decide (a.questionId = q.id) && a.is_correct)).length : ℚ) /
              ((db.answers.filter (fun a => decide (a.questionId = q.id))).length : ℚ) * 100
            else 0))))
      exact List.pairwise_map.mpr hs
    · rw [show (assessment_stats db asm).difficult.length =
          ((db.questions.filter (fun q => decide (q.assessmentId = asm.id))).map (fun q =>
            (q.id, roundTo2 (if (db.answers.filter (fun a =>
                decide (a.questionId = q.id))).length ≠ 0 then
              ((db.answers.filter (fun a =>
                  decide (a.questionId = q.id) && a.is_correct)).length : ℚ) /
                ((db.answers.filter (fun a => decide (a.questionId = q.id))).length : ℚ) * 100
              else 0)))).length from
          (List.perm_insertionSort rateLE _).length_eq]
      rw [List.length_map]
  · have hrate : roundTo2 ((3 : ℚ) / 4 * 100) = 75 := by
      rw [roundTo2_eval ((3 : ℚ) / 4 * 100) (15001/2) 7500 (by norm_num)
        (ratFloor_eval (15001/2) 15001 7500 2 (by norm_num) (by norm_num) (by decide))]
      norm_num
    have hd : (assessment_stats exDbC5w exAsmC5).difficult =
        [(1, roundTo2 ((3 : ℚ) / 4 * 100))] := by
      simp only [assessment_stats, exDbC5w, exAsmC5]
      norm_num [List.filter, List.insertionSort, List.orderedInsert]
    rw [hd, hrate]

/-- C5 counterexample: one question with 3 answers of which 1 is
correct.  The reported rate is `round(100/3, 2) = 33.33`, not the
claim's exact `100 × 1/3`: the handler rounds every reported rate (and
the average) to 2 decimals before reporting and sorting. -/
theorem assessment_stats_cex :
    (assessment_stats exDbC5 exAsmC5).difficult = [(1, 3333/100)] ∧
    ((3333 : ℚ)/100 ≠ 100 * 1 / 3) := by
  have hrate : roundTo2 ((1 : ℚ) / 3 * 100) = 3333/100 := by
    rw [roundTo2_eval ((1 : ℚ) / 3 * 100) (20003/6) 3333 (by norm_num)
      (ratFloor_eval (20003/6) 20003 3333 6 (by norm_num) (by norm_num) (by decide))]
    norm_num
  have hd : (assessment_stats exDbC5 exAsmC5).difficult =
      [(1, roundTo2 ((1 : ℚ) / 3 * 100))] := by
    simp only [assessment_stats, exDbC5, exAsmC5]
    norm_num [List.filter, List.insertionSort, List.orderedInsert]
  exact ⟨by rw [hd, hrate], by norm_num⟩

/-- C5 witness: the amended statement applied to the 4-answers/3-correct
state. -/
theorem assessment_stats_spec_witness :
    (∀ a ∈ exDbC5w.attempts, a.assessmentId = exAsmC5.id → a.is_submitted = true →
      a.score ≠ none) ∧
    (⟨1, 1, QType.multiple_choice, 1, 5⟩ : Question) ∈ exDbC5w.questions ∧
    ((1 : Nat), roundTo2 (if (exDbC5w.answers.filter (fun a =>
        decide (a.questionId = 1))).length ≠ 0 then
      100 * ((exDbC5w.answers.filter (fun a =>
          decide (a.questionId = 1) && a.is_correct)).length : ℚ) /
        ((exDbC5w.answers.filter (fun a => decide (a.questionId = 1))).length : ℚ)
      else 0)) ∈ (assessment_stats exDbC5w exAsmC5).difficult :=
  ⟨by decide, List.mem_singleton.mpr rfl,
    (assessment_stats_spec.1 exDbC5w exAsmC5 (by decide)).2.1
      ⟨1, 1, QType.multiple_choice, 1, 5⟩ (List.mem_singleton.mpr rfl) rfl⟩

/-- C7 (amended): the numeric-form-field handling differs per handler.
`question_edit` does parse order/points inside `try/except ValueError`:
a malformed (or absent) value retains the prior stored value and a
numeric value is applied — never an exception (first conjunct, the part
of the claim that holds).  `assessment_create` substitutes its defaults
(weight 0, attempts 1, time_limit None) only for absent-or-empty fields
and accepts numeric ones (second and third conjuncts) — but its
conversions, like `grade_attempt`'s `float(grade_value)`, are *not*
guarded, so a malformed value propagates `ValueError` (see the
counterexample). -/
theorem numeric_parse_handling :
    (∀ (q : Question) (ro : RawNat) (rp : RawNum),
      (ro = RawNat.malformed → (question_edit_nums q ro rp).order = q.order) ∧
      (rp = RawNum.malformed → (question_edit_nums q ro rp).points = q.points) ∧
      (∀ n, ro = RawNat.num n → (question_edit_nums q ro rp).order = n) ∧
      (∀ v, rp = RawNum.num v → (question_edit_nums q ro rp).points = v)) ∧
    assessment_create_nums RawNum.absent RawNat.absent RawNat.absent =
      Except.ok (0, 1, none) ∧
    (∀ (w : ℚ) (a t : Nat),
      assessment_create_nums (RawNum.num w) (RawNat.num a) (RawNat.num t) =
        Except.ok (w, a, some t)) := by
  refine ⟨?_, rfl, fun w a t => rfl⟩
  intro q ro rp
  refine ⟨?_, ?_, ?_, ?_⟩
  · intro h
    subst h
    cases rp <;> rfl
  · intro h
    subst h
    cases ro <;> rfl
  · intro n h
    subst h
    cases rp <;> rfl
  · intro v h
    subst h
    cases ro <;> rfl

/-- C7 counterexample: a present but non-numeric `grade_2` value makes
`grade_attempt` raise (uncaught `ValueError` from `float(grade_value)`),
and a non-numeric `weight` makes `assessment_create`'s conversions
raise — contradicting "caught locally … never propagated". -/
theorem numeric_parse_handling_cex :
    grade_attempt exDbC4 1 1 Role.teacher true exGradesC7 = Except.error () ∧
    assessment_create_nums RawNum.malformed RawNat.absent RawNat.absent =
      Except.error () :=
  ⟨rfl, rfl⟩

/-- C7 witness: malformed order and points values in `question_edit`
leave the stored question untouched. -/
theorem numeric_parse_handling_witness :
    (question_edit_nums ⟨1, 1, QType.essay, 3, 5⟩ RawNat.malformed RawNum.malformed).order = 3 ∧
    (question_edit_nums ⟨1, 1, QType.essay, 3, 5⟩ RawNat.malformed RawNum.malformed).points = 5 :=
  ⟨(numeric_parse_handling.1 ⟨1, 1, QType.essay, 3, 5⟩ RawNat.malformed
      RawNum.malformed).1 rfl,
   (numeric_parse_handling.1 ⟨1, 1, QType.essay, 3, 5⟩ RawNat.malformed
      RawNum.malformed).2.1 rfl⟩
